import Mathlib

/-!
# Reference-counted owning handle (`my::shared_ptr`) and observer (`my::weak_ptr`)

A shallow embedding of `homework/shared_ptr/shared_ptr.hpp` and
`homework/shared_ptr/weak_ptr.hpp`.

* Raw pointers (`T*`, `controlBlock*`) are natural-number addresses, `0` is `nullptr`.
* The free store is an explicit `Heap`: the control blocks created by `new controlBlock`, the
  managed objects, and a log of the destructive actions performed so far (deleter invocations,
  `delete` of a control block, `delete` of an object).
* `std::size_t` is 64 bits wide and `int` is 32 bits wide; `++`/`--` on the atomic counters wrap
  modulo `2^64`, `static_cast<int>` wraps modulo `2^32`.
* An operation that dereferences a null or dangling control-block pointer has undefined
  behaviour; the embedding returns `none` for it.  Operations that cannot do so are total.
* The code is executed sequentially: every atomic read-modify-write is one step.  The section
  on two threads inside `cleanUp()` interleaves the statements of two sequential executions.
* What a deleter call or a `delete` runs is code of the pointee type, not of the library.  The
  definitions `cleanUp`, `assign`, `moveAssign` and `reset` are for a pointee that is plain
  data; `cleanUpRef`, `assignRef`, `moveAssignRef` and `resetRef` take that code as a parameter
  (`UserCode`) and pass the handles by reference; the two agree on plain data.
-/

namespace my

/-! ## Machine integers -/

/-- The number of values of `std::size_t`. -/
def SIZE_MOD : Nat := 18446744073709551616

/-- The conversion `static_cast<int>(std::size_t)`: reduction modulo `2^32` into the signed
range. -/
def toInt (n : Nat) : Int :=
  if n % 4294967296 < 2147483648 then ((n % 4294967296 : Nat) : Int)
  else ((n % 4294967296 : Nat) : Int) - 4294967296

/-! ## Control block and free store -/

/-- A deleter `void (*)(T*)`: the default lambda `[](T* ptr_) { delete ptr_; }` of
`controlBlock`, or a function supplied by the caller, identified by its address. -/
inductive Deleter where
  | defaultDelete : Deleter
  | custom (fn : Nat) : Deleter
  deriving DecidableEq

/-- The class `shared_ptr<T>::controlBlock` with its in-class initialisers. -/
structure controlBlock where
  sharedRefs_ : Nat := 1
  weakRefs_ : Nat := 0
  deleter_ : Deleter := Deleter.defaultDelete
  deriving DecidableEq

/-- A destructive action, recorded in program order. -/
inductive Event where
  | invokeDeleter (d : Deleter) (p : Nat) : Event
  | deleteBlock (cb : Nat) : Event
  | deleteObject (p : Nat) : Event
  deriving DecidableEq

/-- The free store.  `blocks[a - 1]` is the control block at address `a`: `some b` while it is
allocated, `none` once it has been deleted; addresses are never handed out twice.  `objects p`
is the value of the live object of type `T` at address `p`. -/
structure Heap (T : Type) where
  blocks : List (Option controlBlock)
  objects : Nat → Option T
  log : List Event

variable {T : Type}

/-- The control block a pointer refers to; `none` for `nullptr` and for dangling pointers. -/
def Heap.block (h : Heap T) : Nat → Option controlBlock
  | 0 => none
  | a + 1 => (h.blocks[a]?).getD none

/-- Overwrite the slot of the control block at address `a`. -/
def Heap.store (h : Heap T) (a : Nat) (b : Option controlBlock) : Heap T :=
  match a with
  | 0 => h
  | a + 1 => { h with blocks := h.blocks.set a b }

/-- The expression `new controlBlock`: a fresh address and the heap holding the new block. -/
def Heap.newControlBlock (h : Heap T) : Nat × Heap T :=
  (h.blocks.length + 1, { h with blocks := h.blocks ++ [some {}] })

/-- A read-modify-write of the control block behind `a`. -/
def Heap.modify (h : Heap T) (a : Nat) (f : controlBlock → controlBlock) : Option (Heap T) :=
  match h.block a with
  | none => none
  | some b => some (h.store a (some (f b)))

/-- The statement `a->sharedRefs_++`. -/
def Heap.incShared (h : Heap T) (a : Nat) : Option (Heap T) :=
  h.modify a fun b => { b with sharedRefs_ := (b.sharedRefs_ + 1) % SIZE_MOD }

/-- The statement `a->sharedRefs_--`. -/
def Heap.decShared (h : Heap T) (a : Nat) : Option (Heap T) :=
  h.modify a fun b => { b with sharedRefs_ := (b.sharedRefs_ + (SIZE_MOD - 1)) % SIZE_MOD }

/-- The statement `a->weakRefs_++`. -/
def Heap.incWeak (h : Heap T) (a : Nat) : Option (Heap T) :=
  h.modify a fun b => { b with weakRefs_ := (b.weakRefs_ + 1) % SIZE_MOD }

/-- The statement `a->weakRefs_--`. -/
def Heap.decWeak (h : Heap T) (a : Nat) : Option (Heap T) :=
  h.modify a fun b => { b with weakRefs_ := (b.weakRefs_ + (SIZE_MOD - 1)) % SIZE_MOD }

/-- The statement `a->deleter_ = d`. -/
def Heap.setDeleter (h : Heap T) (a : Nat) (d : Deleter) : Option (Heap T) :=
  h.modify a fun b => { b with deleter_ := d }

/-- The expression `delete p` on an object pointer, for a pointee that is plain data: nothing for
`nullptr`, otherwise the object at `p` ceases to exist; no destructor code runs.  Whether an
object was alive at `p` is not checked: a second `delete` through a dangling object pointer is
not tracked as undefined behaviour here.  `Frame.destroy` is the expression with the
destructor as a parameter and with that check. -/
def Heap.deleteObject (h : Heap T) (p : Nat) : Heap T :=
  if p = 0 then h else { h with objects := fun a => if a = p then none else h.objects a }

/-- A `delete p` expression written in the library itself (in `reset`), recorded in the log
unless `p` is `nullptr`. -/
def Heap.deleteExpr (h : Heap T) (p : Nat) : Heap T :=
  if p = 0 then h else { h.deleteObject p with log := h.log ++ [Event.deleteObject p] }

/-- The call `std::invoke(d, p)`.  The call is recorded; the default deleter executes
`delete p`, the body of a caller-supplied deleter lies outside the library. -/
def Heap.invokeDeleter (h : Heap T) (d : Deleter) (p : Nat) : Heap T :=
  let h1 : Heap T := { h with log := h.log ++ [Event.invokeDeleter d p] }
  match d with
  | Deleter.defaultDelete => h1.deleteObject p
  | Deleter.custom _ => h1

/-- The expression `delete a` on a control-block pointer. -/
def Heap.deleteBlock (h : Heap T) (a : Nat) : Heap T :=
  { h.store a none with log := h.log ++ [Event.deleteBlock a] }

/-! ## `shared_ptr` -/

/-- The data members of `shared_ptr<T>`. -/
structure shared_ptr where
  ptr_ : Nat := 0
  ptrToControlBlock_ : Nat := 0
  deriving DecidableEq

namespace shared_ptr

/-- The constructor `shared_ptr(T* ptr = nullptr)`. -/
def ctor (ptr : Nat) (h : Heap T) : shared_ptr × Heap T :=
  if ptr ≠ 0 then
    let r := h.newControlBlock
    ({ ptr_ := ptr, ptrToControlBlock_ := r.1 }, r.2)
  else
    ({ ptr_ := ptr, ptrToControlBlock_ := 0 }, h)

/-- The constructor `shared_ptr(T* ptr, void (*deleter)(T*))`: delegates to `shared_ptr(ptr)` and
then executes `ptrToControlBlock_->deleter_ = deleter` unconditionally. -/
def ctorDeleter (ptr : Nat) (deleter : Deleter) (h : Heap T) : Option (shared_ptr × Heap T) :=
  let r := ctor ptr h
  (r.2.setDeleter r.1.ptrToControlBlock_ deleter).map fun h1 => (r.1, h1)

/-- The copy constructor `shared_ptr(const shared_ptr& other)`. -/
def copy (other : shared_ptr) (h : Heap T) : Option (shared_ptr × Heap T) :=
  let self : shared_ptr :=
    { ptr_ := other.ptr_, ptrToControlBlock_ := other.ptrToControlBlock_ }
  if self.ptr_ ≠ 0 then
    (h.incShared self.ptrToControlBlock_).map fun h1 => (self, h1)
  else
    some (self, h)

/-- The move constructor `shared_ptr(shared_ptr&& other)`: the new handle and the state `other`
is left in. -/
def move (other : shared_ptr) : shared_ptr × shared_ptr :=
  if other.ptr_ ≠ 0 then
    ({ ptr_ := other.ptr_, ptrToControlBlock_ := other.ptrToControlBlock_ },
     { ptr_ := 0, ptrToControlBlock_ := 0 })
  else
    ({ ptr_ := 0, ptrToControlBlock_ := 0 }, other)

/-- The private member `cleanUp()`: decrement, then a separate load compared with zero. -/
def cleanUp (self : shared_ptr) (h : Heap T) : Option (shared_ptr × Heap T) :=
  match h.decShared self.ptrToControlBlock_ with
  | none => none
  | some h1 =>
    match h1.block self.ptrToControlBlock_ with
    | none => none
    | some b =>
      if b.sharedRefs_ = 0 then
        let h2 := h1.invokeDeleter b.deleter_ self.ptr_
        let h3 := h2.deleteBlock self.ptrToControlBlock_
        some ({ ptr_ := 0, ptrToControlBlock_ := 0 }, h3)
      else
        some (self, h1)

/-- The destructor `~shared_ptr()`; the handle no longer exists afterwards. -/
def dtor (self : shared_ptr) (h : Heap T) : Option (Heap T) :=
  if self.ptr_ ≠ 0 ∨ self.ptrToControlBlock_ ≠ 0 then
    (self.cleanUp h).map fun r => r.2
  else
    some h

/-- The copy assignment `operator=(const shared_ptr& other)`: the new value of `*this`.  The
handle `other` is passed by value: this is the assignment for deleters that cannot reach
`other`; `assignRef` passes it by reference. -/
def assign (self other : shared_ptr) (h : Heap T) : Option (shared_ptr × Heap T) :=
  if self.ptr_ = other.ptr_ ∨ (self.ptr_ = 0 ∧ other.ptr_ = 0) then
    some (self, h)
  else if self.ptr_ = 0 ∧ other.ptr_ ≠ 0 then
    (h.incShared other.ptrToControlBlock_).map fun h1 =>
      ({ ptr_ := other.ptr_, ptrToControlBlock_ := other.ptrToControlBlock_ }, h1)
  else if self.ptr_ ≠ 0 ∧ other.ptr_ = 0 then
    (self.cleanUp h).map fun r => ({ ptr_ := 0, ptrToControlBlock_ := 0 }, r.2)
  else if self.ptr_ ≠ 0 ∧ other.ptr_ ≠ 0 then
    match self.cleanUp h with
    | none => none
    | some r =>
      (r.2.incShared other.ptrToControlBlock_).map fun h1 =>
        ({ ptr_ := other.ptr_, ptrToControlBlock_ := other.ptrToControlBlock_ }, h1)
  else
    some (self, h)

/-- The move assignment `operator=(shared_ptr&& other)`: the new values of `*this` and of
`other`.  The handle `other` is passed by value: this is the assignment for deleters that cannot
reach `other`; `moveAssignRef` passes it by reference. -/
def moveAssign (self other : shared_ptr) (h : Heap T) :
    Option (shared_ptr × shared_ptr × Heap T) :=
  if self.ptr_ = other.ptr_ ∨ (self.ptr_ = 0 ∧ other.ptr_ = 0) then
    some (self, other, h)
  else if self.ptr_ = 0 ∧ other.ptr_ ≠ 0 then
    some ({ ptr_ := other.ptr_, ptrToControlBlock_ := other.ptrToControlBlock_ },
          { ptr_ := 0, ptrToControlBlock_ := 0 }, h)
  else if self.ptr_ ≠ 0 ∧ other.ptr_ = 0 then
    (self.cleanUp h).map fun r => ({ ptr_ := 0, ptrToControlBlock_ := 0 }, other, r.2)
  else if self.ptr_ ≠ 0 ∧ other.ptr_ ≠ 0 then
    (self.cleanUp h).map fun r =>
      ({ ptr_ := other.ptr_, ptrToControlBlock_ := other.ptrToControlBlock_ },
       { ptr_ := 0, ptrToControlBlock_ := 0 }, r.2)
  else
    some (self, other, h)

/-- The conversion `operator bool()`. -/
def toBool (self : shared_ptr) : Bool :=
  self.ptr_ != 0

/-- The accessor `get()`. -/
def get (self : shared_ptr) : Nat :=
  self.ptr_

/-- The dereference `operator*()`: the value of the object at `ptr_`, undefined when there is no
live object there. -/
def deref (self : shared_ptr) (h : Heap T) : Option T :=
  if self.ptr_ = 0 then none else h.objects self.ptr_

/-- The member `release()`: the returned pointer and the new value of `*this`. -/
def release (self : shared_ptr) : Nat × shared_ptr :=
  (self.ptr_, { self with ptr_ := 0 })

/-- The member `reset(T* ptr)` for a pointee that is plain data; `reset()` is `reset 0`.
`resetRef` runs the destructor of the pointee. -/
def reset (self : shared_ptr) (ptr : Nat) (h : Heap T) : shared_ptr × Heap T :=
  ({ self with ptr_ := ptr }, h.deleteExpr self.ptr_)

/-- The observer `use_count()`. -/
def use_count (self : shared_ptr) (h : Heap T) : Option Int :=
  if self.ptrToControlBlock_ = 0 then some 0
  else (h.block self.ptrToControlBlock_).map fun b => toInt b.sharedRefs_

end shared_ptr

/-! ## `weak_ptr` -/

/-- The data members of `weak_ptr<T>`. -/
structure weak_ptr where
  ptr_ : Nat := 0
  ptrToControlBlock_ : Nat := 0
  deriving DecidableEq

namespace weak_ptr

/-- The defaulted constructor `weak_ptr()`. -/
def ctor : weak_ptr :=
  {}

/-- The converting constructor `weak_ptr(const shared_ptr<T>& other)`. -/
def fromShared (other : shared_ptr) (h : Heap T) : Option (weak_ptr × Heap T) :=
  if other.ptr_ ≠ 0 then
    (h.incWeak other.ptrToControlBlock_).map fun h1 =>
      ({ ptr_ := other.ptr_, ptrToControlBlock_ := other.ptrToControlBlock_ }, h1)
  else
    some ({}, h)

/-- The copy constructor `weak_ptr(const weak_ptr<T>& other)`. -/
def copy (other : weak_ptr) (h : Heap T) : Option (weak_ptr × Heap T) :=
  if other.ptr_ ≠ 0 then
    (h.incWeak other.ptrToControlBlock_).map fun h1 =>
      ({ ptr_ := other.ptr_, ptrToControlBlock_ := other.ptrToControlBlock_ }, h1)
  else
    some ({}, h)

/-- The move constructor `weak_ptr(weak_ptr<T>&& other)`: the new handle and the state `other`
is left in. -/
def move (other : weak_ptr) : weak_ptr × weak_ptr :=
  if other.ptr_ ≠ 0 then
    ({ ptr_ := other.ptr_, ptrToControlBlock_ := other.ptrToControlBlock_ },
     { ptr_ := 0, ptrToControlBlock_ := 0 })
  else
    ({}, other)

/-- The assignment `operator=(weak_ptr<T>& other)`: the new values of `*this` and of `other`
(the third branch writes to `other.ptrToControlBlock_`). -/
def assign (self other : weak_ptr) (h : Heap T) : Option (weak_ptr × weak_ptr × Heap T) :=
  if self.ptr_ = other.ptr_ ∨ (self.ptr_ = 0 ∧ other.ptr_ = 0) then
    some (self, other, h)
  else if self.ptr_ = 0 ∧ other.ptr_ ≠ 0 then
    (h.incWeak other.ptrToControlBlock_).map fun h1 =>
      ({ ptr_ := other.ptr_, ptrToControlBlock_ := other.ptrToControlBlock_ }, other, h1)
  else if self.ptr_ ≠ 0 ∧ other.ptr_ = 0 then
    (h.decWeak self.ptrToControlBlock_).map fun h1 =>
      ({ self with ptr_ := 0 }, { other with ptrToControlBlock_ := 0 }, h1)
  else if self.ptr_ ≠ 0 ∧ other.ptr_ ≠ 0 then
    match h.decWeak self.ptrToControlBlock_ with
    | none => none
    | some h1 =>
      (h1.incWeak other.ptrToControlBlock_).map fun h2 =>
        ({ ptr_ := other.ptr_, ptrToControlBlock_ := other.ptrToControlBlock_ }, other, h2)
  else
    some (self, other, h)

/-- The observer `use_count()`. -/
def use_count (self : weak_ptr) (h : Heap T) : Option Int :=
  if self.ptrToControlBlock_ ≠ 0 then
    (h.block self.ptrToControlBlock_).map fun b => toInt b.sharedRefs_
  else
    some 0

/-- The member `lock()`: `shared_ptr<T>(ptr_, ptrToControlBlock_)` after an unconditional
`sharedRefs_++`, or `shared_ptr<T>(nullptr)`. -/
def lock (self : weak_ptr) (h : Heap T) : Option (shared_ptr × Heap T) :=
  if self.ptr_ ≠ 0 then
    (h.incShared self.ptrToControlBlock_).map fun h1 =>
      ({ ptr_ := self.ptr_, ptrToControlBlock_ := self.ptrToControlBlock_ }, h1)
  else
    some (shared_ptr.ctor 0 h)

end weak_ptr

/-! ## Client programs over owning handles

A client program is a sequence of copy constructions, move constructions and destructions of
handle objects.  Handle objects are numbered in order of construction. -/

/-- A handle object is two pointers, 16 bytes; a 64-bit address space holds at most `2^60`. -/
def MAX_HANDLES : Nat := 1152921504606846976

/-- The state of a client program: the free store and the handle objects constructed so far,
`none` for those whose lifetime has ended. -/
structure Prog (T : Type) where
  heap : Heap T
  vars : List (Option shared_ptr)

/-- One statement of a client program. -/
inductive Op where
  | copy (i : Nat) : Op
  | move (i : Nat) : Op
  | destroy (i : Nat) : Op
  deriving DecidableEq

namespace Prog

/-- The handle object number `i`, if it exists and is alive. -/
def handle (s : Prog T) (i : Nat) : Option shared_ptr :=
  (s.vars[i]?).getD none

/-- The number of handle objects that are alive. -/
def liveHandles (s : Prog T) : Nat :=
  s.vars.countP Option.isSome

/-- The test "is a live handle whose object pointer is `p`". -/
def refers (p : Nat) : Option shared_ptr → Bool
  | some sp => sp.ptr_ == p
  | none => false

/-- The number of live handles whose object pointer is `p`. -/
def owners (p : Nat) (s : Prog T) : Nat :=
  s.vars.countP (refers p)

/-- Execute one statement.  A statement naming a handle object that does not exist or is no
longer alive, and a construction for which no storage is left, is not executed.  The result is
`none` when the executed library code has undefined behaviour. -/
def step (s : Prog T) : Op → Option (Prog T)
  | Op.copy i =>
    match s.handle i with
    | none => some s
    | some src =>
      if s.liveHandles < MAX_HANDLES then
        (src.copy s.heap).map fun r => { heap := r.2, vars := s.vars ++ [some r.1] }
      else
        some s
  | Op.move i =>
    match s.handle i with
    | none => some s
    | some src =>
      if s.liveHandles < MAX_HANDLES then
        some { heap := s.heap, vars := s.vars.set i (some src.move.2) ++ [some src.move.1] }
      else
        some s
  | Op.destroy i =>
    match s.handle i with
    | none => some s
    | some v => (v.dtor s.heap).map fun h1 => { heap := h1, vars := s.vars.set i none }

/-- Execute a sequence of statements. -/
def run (s : Prog T) : List Op → Option (Prog T)
  | [] => some s
  | op :: ops => (s.step op).bind fun s1 => s1.run ops

/-- The program state right after `shared_ptr<T> v0(p);` (`d = none`) or
`shared_ptr<T> v0(p, fn);` (`d = some fn`) has been executed on the free store `h0`. -/
def start (h0 : Heap T) (p : Nat) : Option Deleter → Option (Prog T)
  | none => some { heap := (shared_ptr.ctor p h0).2, vars := [some (shared_ptr.ctor p h0).1] }
  | some d => (shared_ptr.ctorDeleter p d h0).map fun r => { heap := r.2, vars := [some r.1] }

/-- Construct the first handle, then execute `ops`. -/
def exec (h0 : Heap T) (p : Nat) (d : Option Deleter) (ops : List Op) : Option (Prog T) :=
  (start h0 p d).bind fun s => s.run ops

end Prog

/-- The deleter stored in the control block made by `start`. -/
def storedDeleter : Option Deleter → Deleter
  | none => Deleter.defaultDelete
  | some d => d

/-! ## Example free store -/

/-- A free store without control blocks whose only object is a `42` at address `10`. -/
def heap42 : Heap Int :=
  { blocks := [], objects := fun a => if a = 10 then some 42 else none, log := [] }

/-- The free store after `shared_ptr<int> y(p10);` on `heap42`: control block `1` with
`sharedRefs_ = 1`. -/
def heapOwned : Heap Int :=
  (shared_ptr.ctor 10 heap42).2

/-- The handle left behind by `release()` on the only owner of the object at `10`: a null
object pointer next to the control-block pointer `1`. -/
def releasedHandle : shared_ptr :=
  (shared_ptr.ctor 10 heap42).1.release.2

/-! ## Handles in good standing and the release protocol -/

/-- An owning handle in good standing on the free store `h`: either both pointers are null, or
the object pointer is non-null and the control-block pointer refers to an allocated control
block whose `sharedRefs_` is at least `1` and below the largest `std::size_t`. -/
def shared_ptr.valid (sp : shared_ptr) (h : Heap T) : Bool :=
  if sp.ptr_ = 0 then sp.ptrToControlBlock_ == 0
  else
    match h.block sp.ptrToControlBlock_ with
    | none => false
    | some b => decide (1 ≤ b.sharedRefs_) && decide (b.sharedRefs_ + 1 < SIZE_MOD)

/-- The release protocol as the specification words it, run once for the handle `a` and taking
the free store from `h` to `h1`: the strong count of the control block of `a` drops by one; if
it reaches zero the deleter stored in the block is invoked on the object pointer of `a` and then
the block is deallocated; otherwise nothing is invoked or deallocated.  No other control block
changes. -/
def Released (a : shared_ptr) (h h1 : Heap T) : Prop :=
  ∃ na, h.block a.ptrToControlBlock_ = some na ∧
    (∀ c, c ≠ a.ptrToControlBlock_ → h1.block c = h.block c) ∧
    (na.sharedRefs_ = 1 →
      h1.block a.ptrToControlBlock_ = none ∧
      h1.log = h.log ++ [Event.invokeDeleter na.deleter_ a.ptr_,
        Event.deleteBlock a.ptrToControlBlock_]) ∧
    (na.sharedRefs_ ≠ 1 →
      h1.block a.ptrToControlBlock_ = some { na with sharedRefs_ := na.sharedRefs_ - 1 } ∧
      h1.log = h.log)

/-- The handles `x` and `y` and the free store after
`shared_ptr<int> y(p10); shared_ptr<int> x(y); x.release(); x.reset(p20);`: two handles with
different non-null object pointers on one control block; no object has been deleted. -/
def afterReset : Option (shared_ptr × shared_ptr × Heap Int) :=
  ((shared_ptr.ctor 10 heap42).1.copy heapOwned).map fun x =>
    ((x.1.release.2.reset 20 x.2).1, (shared_ptr.ctor 10 heap42).1,
      (x.1.release.2.reset 20 x.2).2)

/-- The free store after `shared_ptr<int> a(p10); shared_ptr<int> b(p20);` on `heap42`: control
block `1` for the object at `10`, control block `2` for the object at `20`. -/
def heapTwo : Heap Int :=
  (shared_ptr.ctor 20 heapOwned).2

/-- The handle and the free store after `shared_ptr<int> s(p10); weak_ptr<int> w(s);` and the
destruction of `s`: the observer `w` and what is left of the free store. -/
def expiredObserver : Option (weak_ptr × Heap Int) :=
  (weak_ptr.fromShared (shared_ptr.ctor 10 heap42).1 heapOwned).bind fun w =>
    ((shared_ptr.ctor 10 heap42).1.dtor w.2).map fun h => (w.1, h)

/-- The invariant of the client programs that start with one handle on the object at `p`, whose
control block is at `cb` and stores the deleter `dl`; `log0` is the log at the start.  Every
live handle is empty or is `(p, cb)`; the handle objects fit into memory; while owners remain
the control block counts exactly them and nothing has been logged; once none remains the
control block is gone and the log has grown by one deleter call on `p` and the deallocation of
the block. -/
def Prog.Inv (p cb : Nat) (dl : Deleter) (log0 : List Event) (s : Prog T) : Prop :=
  (∀ v ∈ s.vars, v = none ∨ v = some { ptr_ := 0, ptrToControlBlock_ := 0 } ∨
    v = some { ptr_ := p, ptrToControlBlock_ := cb }) ∧
  s.liveHandles ≤ MAX_HANDLES ∧
  (0 < Prog.owners p s →
    s.heap.block cb = some { sharedRefs_ := Prog.owners p s, weakRefs_ := 0, deleter_ := dl } ∧
    s.heap.log = log0) ∧
  (Prog.owners p s = 0 →
    s.heap.block cb = none ∧
    s.heap.log = log0 ++ [Event.invokeDeleter dl p, Event.deleteBlock cb])

/-! ## Well-formed handles, frames and further example states -/

/-- The well-formedness condition of the data model: the object pointer and the control-block
pointer are both null or both non-null. -/
def shared_ptr.wellFormed (sp : shared_ptr) : Bool :=
  (sp.ptr_ == 0) == (sp.ptrToControlBlock_ == 0)

/-- What an owner can observe of a control block slot: whether it is allocated, its strong
count and its deleter. -/
def ownerView (b : Option controlBlock) : Option (Nat × Deleter) :=
  b.map fun c => (c.sharedRefs_, c.deleter_)

/-- The frame of the observing-handle operations, from the free store `h` to `h1`: no deleter
has been invoked and nothing has been deleted (the log and the objects are the same), and at
every address the same control blocks are allocated with the same strong count and deleter. -/
def OwnersUntouched (h h1 : Heap T) : Prop :=
  h1.log = h.log ∧ h1.objects = h.objects ∧ ∀ c, ownerView (h1.block c) = ownerView (h.block c)

/-- The observer and the free store after `shared_ptr<int> s(p10); weak_ptr<int> w(s);`. -/
def observed : Option (weak_ptr × Heap Int) :=
  weak_ptr.fromShared (shared_ptr.ctor 10 heap42).1 heapOwned

/-- The test "is a deleter invocation". -/
def Event.isInvoke : Event → Bool
  | Event.invokeDeleter _ _ => true
  | _ => false

/-! ## Two threads inside `cleanUp()`

The statements of `cleanUp()` executed by a thread, one step each.  The operations on
`std::atomic<std::size_t>` use the default sequentially consistent ordering, so an execution of
two threads is an interleaving of their steps. -/

/-- Where a thread stands in `cleanUp()`: before `sharedRefs_--`; before the load in
`if (sharedRefs_ == 0)`; inside the `if`, before `std::invoke`; before
`delete ptrToControlBlock_`; finished. -/
inductive Pc where
  | entry : Pc
  | decremented : Pc
  | sawZero : Pc
  | invoked : Pc
  | done : Pc
  deriving DecidableEq

/-- A thread destroying the handle `self`. -/
structure Thread where
  self : shared_ptr
  pc : Pc
  deriving DecidableEq

/-- One step of a thread.  Deleting a control block that is no longer allocated is undefined
behaviour, as is every access to it. -/
def Thread.step (t : Thread) (h : Heap T) : Option (Thread × Heap T) :=
  match t.pc with
  | Pc.entry =>
    (h.decShared t.self.ptrToControlBlock_).map fun h1 => ({ t with pc := Pc.decremented }, h1)
  | Pc.decremented =>
    (h.block t.self.ptrToControlBlock_).map fun b =>
      (if b.sharedRefs_ = 0 then { t with pc := Pc.sawZero } else { t with pc := Pc.done }, h)
  | Pc.sawZero =>
    (h.block t.self.ptrToControlBlock_).map fun b =>
      ({ self := { t.self with ptr_ := 0 }, pc := Pc.invoked },
        h.invokeDeleter b.deleter_ t.self.ptr_)
  | Pc.invoked =>
    (h.block t.self.ptrToControlBlock_).map fun _ =>
      ({ self := { t.self with ptrToControlBlock_ := 0 }, pc := Pc.done },
        h.deleteBlock t.self.ptrToControlBlock_)
  | Pc.done => some (t, h)

/-- A thread running alone for `n` steps. -/
def Thread.steps (t : Thread) (h : Heap T) : Nat → Option (Thread × Heap T)
  | 0 => some (t, h)
  | n + 1 => (t.step h).bind fun r => r.1.steps r.2 n

/-- Two threads and the free store they share. -/
structure Race (T : Type) where
  t1 : Thread
  t2 : Thread
  heap : Heap T

/-- One step of the thread chosen by the scheduler (`true`: the first thread). -/
def Race.step (r : Race T) (first : Bool) : Option (Race T) :=
  if first then (r.t1.step r.heap).map fun x => { r with t1 := x.1, heap := x.2 }
  else (r.t2.step r.heap).map fun x => { r with t2 := x.1, heap := x.2 }

/-- The execution under a schedule. -/
def Race.run (r : Race T) : List Bool → Option (Race T)
  | [] => some r
  | b :: bs => (r.step b).bind fun r1 => r1.run bs

/-- Two threads about to destroy the handles `s` and its copy, which share control block `1`
with `sharedRefs_ == 2`: the state after `shared_ptr<int> s(p10); shared_ptr<int> c(s);`. -/
def twoOwners : Option (Race Int) :=
  ((shared_ptr.ctor 10 heap42).1.copy heapOwned).map fun c =>
    { t1 := { self := (shared_ptr.ctor 10 heap42).1, pc := Pc.entry },
      t2 := { self := c.1, pc := Pc.entry },
      heap := c.2 }

/-! ## Deleters and destructors that run code of their own

`std::invoke(deleter_, ptr_)` and `delete ptr_` run code that is not part of the library: a
caller-supplied deleter, or the destructor `~T` of the pointee.  That code can reach handles,
for instance the handles that the pointee holds as data members, and can destroy the object in
which a handle lives.  The definitions of this section take that code as a parameter and thread
through it everything the running operation shares with it. -/

/-- What a member function shares with the code outside the library: the free store, the handle
`*this` and the handle `other` that the function holds a reference to.  A handle is `none` once
the storage it lives in has been released. -/
structure Frame (T : Type) where
  heap : Heap T
  self : Option shared_ptr
  other : Option shared_ptr

/-- The code outside the library.  `destructor p` is the destructor `~T` run on the object at
`p`, with everything it triggers; `deleter fn p` is the call of the caller-supplied deleter
`fn` on `p`.  The result is `none` when that code has undefined behaviour. -/
structure UserCode (T : Type) where
  destructor : Nat → Frame T → Option (Frame T)
  deleter : Nat → Nat → Frame T → Option (Frame T)

/-- The expression `delete p` on an object pointer: nothing for `nullptr`; undefined when no
object is alive at `p`; otherwise the destructor runs and then the object ceases to exist. -/
def Frame.destroy (u : UserCode T) (p : Nat) (f : Frame T) : Option (Frame T) :=
  if p = 0 then some f
  else
    match f.heap.objects p with
    | none => none
    | some _ => (u.destructor p f).map fun f1 => { f1 with heap := f1.heap.deleteObject p }

/-- The body of the call `d(p)`: `delete p` for the default deleter. -/
def Frame.call (u : UserCode T) (d : Deleter) (p : Nat) (f : Frame T) : Option (Frame T) :=
  match d with
  | Deleter.defaultDelete => Frame.destroy u p f
  | Deleter.custom fn => u.deleter fn p f

/-- Append an event to the log of the free store. -/
def Frame.record (f : Frame T) (e : Event) : Frame T :=
  { f with heap := { f.heap with log := f.heap.log ++ [e] } }

/-- The private member `cleanUp()` of the handle `*this` of the frame.  `*this` is read again
after the deleter has returned. -/
def shared_ptr.cleanUpRef (u : UserCode T) (f : Frame T) : Option (Frame T) :=
  match f.self with
  | none => none
  | some s =>
    match f.heap.decShared s.ptrToControlBlock_ with
    | none => none
    | some h1 =>
      match h1.block s.ptrToControlBlock_ with
      | none => none
      | some b =>
        if b.sharedRefs_ = 0 then
          match Frame.call u b.deleter_ s.ptr_
              (Frame.record { f with heap := h1 } (Event.invokeDeleter b.deleter_ s.ptr_)) with
          | none => none
          | some f2 =>
            match f2.self with
            | none => none
            | some s2 =>
              if s2.ptrToControlBlock_ = 0 then
                some { f2 with self := some { ptr_ := 0, ptrToControlBlock_ := 0 } }
              else
                match f2.heap.block s2.ptrToControlBlock_ with
                | none => none
                | some _ =>
                  some { f2 with
                    heap := f2.heap.deleteBlock s2.ptrToControlBlock_,
                    self := some { ptr_ := 0, ptrToControlBlock_ := 0 } }
        else
          some { f with heap := h1 }

/-- The copy assignment `operator=(const shared_ptr& other)` on the handles of the frame;
`other` is read again after `cleanUp()`. -/
def shared_ptr.assignRef (u : UserCode T) (f : Frame T) : Option (Frame T) :=
  match f.self, f.other with
  | some s, some o =>
    if s.ptr_ = o.ptr_ ∨ (s.ptr_ = 0 ∧ o.ptr_ = 0) then
      some f
    else if s.ptr_ = 0 ∧ o.ptr_ ≠ 0 then
      (f.heap.incShared o.ptrToControlBlock_).map fun h1 =>
        { f with heap := h1,
                 self := some { ptr_ := o.ptr_, ptrToControlBlock_ := o.ptrToControlBlock_ } }
    else if s.ptr_ ≠ 0 ∧ o.ptr_ = 0 then
      (shared_ptr.cleanUpRef u f).bind fun f1 =>
        match f1.self with
        | none => none
        | some _ => some { f1 with self := some { ptr_ := 0, ptrToControlBlock_ := 0 } }
    else if s.ptr_ ≠ 0 ∧ o.ptr_ ≠ 0 then
      (shared_ptr.cleanUpRef u f).bind fun f1 =>
        match f1.self, f1.other with
        | some _, some o1 =>
          (f1.heap.incShared o1.ptrToControlBlock_).map fun h2 =>
            { f1 with heap := h2,
                      self := some { ptr_ := o1.ptr_, ptrToControlBlock_ := o1.ptrToControlBlock_ } }
        | _, _ => none
    else
      some f
  | _, _ => none

/-- The move assignment `operator=(shared_ptr&& other)` on the handles of the frame; `other` is
read and written after `cleanUp()`. -/
def shared_ptr.moveAssignRef (u : UserCode T) (f : Frame T) : Option (Frame T) :=
  match f.self, f.other with
  | some s, some o =>
    if s.ptr_ = o.ptr_ ∨ (s.ptr_ = 0 ∧ o.ptr_ = 0) then
      some f
    else if s.ptr_ = 0 ∧ o.ptr_ ≠ 0 then
      some { f with self := some { ptr_ := o.ptr_, ptrToControlBlock_ := o.ptrToControlBlock_ },
                    other := some { ptr_ := 0, ptrToControlBlock_ := 0 } }
    else if s.ptr_ ≠ 0 ∧ o.ptr_ = 0 then
      (shared_ptr.cleanUpRef u f).bind fun f1 =>
        match f1.self with
        | none => none
        | some _ => some { f1 with self := some { ptr_ := 0, ptrToControlBlock_ := 0 } }
    else if s.ptr_ ≠ 0 ∧ o.ptr_ ≠ 0 then
      (shared_ptr.cleanUpRef u f).bind fun f1 =>
        match f1.self, f1.other with
        | some _, some o1 =>
          some { f1 with
            self := some { ptr_ := o1.ptr_, ptrToControlBlock_ := o1.ptrToControlBlock_ },
            other := some { ptr_ := 0, ptrToControlBlock_ := 0 } }
        | _, _ => none
    else
      some f
  | _, _ => none

/-- The member `reset(T* ptr)` of the handle `*this` of the frame: `delete ptr_`, recorded in
the log unless `ptr_` is null, then `ptr_ = ptr`. -/
def shared_ptr.resetRef (u : UserCode T) (ptr : Nat) (f : Frame T) : Option (Frame T) :=
  match f.self with
  | none => none
  | some s =>
    (if s.ptr_ = 0 then some f
      else Frame.destroy u s.ptr_ (Frame.record f (Event.deleteObject s.ptr_))).bind fun f1 =>
      match f1.self with
      | none => none
      | some s1 => some { f1 with self := some { s1 with ptr_ := ptr } }

/-- The code of a pointee that is plain data and of deleters that do nothing the library could
notice: destructors and caller-supplied deleters return at once. -/
def UserCode.plain : UserCode T :=
  { destructor := fun _ f => some f, deleter := fun _ _ f => some f }

/-- The code of a pointee type whose objects hold owning handles as data members: the
destructor of the object at `p` destroys the handles `members p` one after the other (what
they release in turn is plain data).  `inside` is the address of the object in which the handle
`other` lives, if it lives in one: the destruction of that object ends the lifetime of
`other`. -/
def UserCode.holding (members : Nat → List shared_ptr) (inside : Option Nat) : UserCode T :=
  { destructor := fun p f =>
      ((members p).foldlM (fun (hh : Heap T) (m : shared_ptr) => m.dtor hh) f.heap).map fun h1 =>
        { f with heap := h1, other := if inside = some p then none else f.other },
    deleter := fun _ _ f => some f }

/-- The call `d(p)`, made on a free store whose objects are `objs`, returns and has not called
back into the library: both handles, every control block and the log are as before. -/
def UserCode.Quiet (u : UserCode T) (d : Deleter) (p : Nat) (objs : Nat → Option T) : Prop :=
  ∀ f : Frame T, f.heap.objects = objs →
    ∃ f1, Frame.call u d p f = some f1 ∧ f1.self = f.self ∧ f1.other = f.other ∧
      f1.heap.blocks = f.heap.blocks ∧ f1.heap.log = f.heap.log

/-- A free store with a `1` at address `10` and a `2` at address `20`, and no control
blocks. -/
def heapPair : Heap Int :=
  { blocks := [],
    objects := fun a => if a = 10 then some 1 else if a = 20 then some 2 else none,
    log := [] }

/-- The free store after `shared_ptr<Node> head(n10); head->next = shared_ptr<Node>(n20);`:
control block `1` for the node at `10`, control block `2` for the node at `20`, each with one
owner. -/
def heapList : Heap Int :=
  (shared_ptr.ctor 20 (shared_ptr.ctor 10 heapPair).2).2

/-- The members of the nodes of that list: the node at `10` holds the handle `(20, 2)`. -/
def listMembers (p : Nat) : List shared_ptr :=
  if p = 10 then [{ ptr_ := 20, ptrToControlBlock_ := 2 }] else []

/-- The frame after `shared_ptr<Obj> h(p10); h->self = h;`: the object at `10` holds a handle on
itself, control block `1` has two owners. -/
def selfOwned : Option (Frame Int) :=
  ((shared_ptr.ctor 10 heap42).1.copy heapOwned).map fun c =>
    { heap := c.2, self := some (shared_ptr.ctor 10 heap42).1, other := none }

/-- The members of that object: the object at `10` holds the handle `(10, 1)`. -/
def selfMembers (p : Nat) : List shared_ptr :=
  if p = 10 then [{ ptr_ := 10, ptrToControlBlock_ := 1 }] else []

/-! ## Basic facts about the free store -/

namespace Heap

theorem block_zero (h : Heap T) : h.block 0 = none := rfl

theorem block_store_self (h : Heap T) (a : Nat) (b : controlBlock) (v : Option controlBlock)
    (hb : h.block a = some b) : (h.store a v).block a = v := by
  cases a with
  | zero => simp [block] at hb
  | succ n =>
    simp only [block, store] at hb ⊢
    by_cases hn : n < h.blocks.length
    · simp [List.getElem?_set, hn]
    · have : h.blocks[n]? = none := List.getElem?_eq_none (by omega)
      simp [this] at hb

theorem block_store_ne (h : Heap T) (a c : Nat) (v : Option controlBlock) (hc : c ≠ a) :
    (h.store a v).block c = h.block c := by
  cases a with
  | zero => rfl
  | succ n =>
    cases c with
    | zero => rfl
    | succ m =>
      have hmn : n ≠ m := fun e => hc (by rw [e])
      simp [block, store, List.getElem?_set_ne hmn]

theorem store_objects (h : Heap T) (a : Nat) (v : Option controlBlock) :
    (h.store a v).objects = h.objects := by
  cases a <;> rfl

theorem store_log (h : Heap T) (a : Nat) (v : Option controlBlock) :
    (h.store a v).log = h.log := by
  cases a <;> rfl

theorem modify_eq (h : Heap T) (a : Nat) (f : controlBlock → controlBlock) (b : controlBlock)
    (hb : h.block a = some b) : h.modify a f = some (h.store a (some (f b))) := by
  simp [modify, hb]

theorem modify_none (h : Heap T) (a : Nat) (f : controlBlock → controlBlock)
    (hb : h.block a = none) : h.modify a f = none := by
  simp [modify, hb]

theorem newControlBlock_fst_ne_zero (h : Heap T) : h.newControlBlock.1 ≠ 0 := by
  simp [newControlBlock]

theorem newControlBlock_fresh (h : Heap T) : h.block h.newControlBlock.1 = none := by
  simp [newControlBlock, block]

theorem newControlBlock_block_self (h : Heap T) :
    h.newControlBlock.2.block h.newControlBlock.1 = some {} := by
  simp [newControlBlock, block]

theorem newControlBlock_block_ne (h : Heap T) (c : Nat) (hc : c ≠ h.newControlBlock.1) :
    h.newControlBlock.2.block c = h.block c := by
  cases c with
  | zero => rfl
  | succ m =>
    have hm : m ≠ h.blocks.length := fun e => hc (by simp [newControlBlock, e])
    simp only [newControlBlock, block]
    by_cases hlt : m < h.blocks.length
    · rw [List.getElem?_append_left hlt]
    · have h1 : h.blocks[m]? = none := List.getElem?_eq_none (by omega)
      have h2 : (h.blocks ++ [some ({} : controlBlock)])[m]? = none :=
        List.getElem?_eq_none (by simp; omega)
      rw [h1, h2]

end Heap

/-! ## Construction from a raw pointer -/

/-- C4 (the code at the claim's input): `shared_ptr(nullptr, deleter)` delegates to
`shared_ptr(nullptr)`, which allocates no control block, and then writes
`ptrToControlBlock_->deleter_` through the null control-block pointer: undefined behaviour for
every free store and every deleter, whereas the one-argument constructor returns the empty
handle and leaves the free store alone. -/
theorem ctorDeleter_null_dereferences (h : Heap T) (d : Deleter) :
    shared_ptr.ctorDeleter 0 d h = none ∧
    shared_ptr.ctor 0 h = ({ ptr_ := 0, ptrToControlBlock_ := 0 }, h) := by
  constructor
  · simp [shared_ptr.ctorDeleter, shared_ptr.ctor, Heap.setDeleter, Heap.modify, Heap.block]
  · simp [shared_ptr.ctor]

/-- C5: `shared_ptr(p)` for a non-null `p` allocates a control block at a non-null address that
was not allocated before, with `sharedRefs_ = 1`, `weakRefs_ = 0` and the default deleter,
changes nothing else in the free store, and yields `get() == p`, `use_count() == 1`,
`bool == true`; for a null `p` the free store is unchanged (no control block is allocated) and
the handle has a null control-block pointer, `get() == nullptr`, `use_count() == 0`,
`bool == false`. -/
theorem ctor_from_raw_pointer (h : Heap T) (p : Nat) :
    (p ≠ 0 →
      (shared_ptr.ctor p h).1.ptrToControlBlock_ ≠ 0 ∧
      h.block (shared_ptr.ctor p h).1.ptrToControlBlock_ = none ∧
      (shared_ptr.ctor p h).2.block (shared_ptr.ctor p h).1.ptrToControlBlock_
        = some { sharedRefs_ := 1, weakRefs_ := 0, deleter_ := Deleter.defaultDelete } ∧
      (∀ c, c ≠ (shared_ptr.ctor p h).1.ptrToControlBlock_ →
        (shared_ptr.ctor p h).2.block c = h.block c) ∧
      (shared_ptr.ctor p h).2.objects = h.objects ∧
      (shared_ptr.ctor p h).2.log = h.log ∧
      (shared_ptr.ctor p h).1.get = p ∧
      (shared_ptr.ctor p h).1.use_count (shared_ptr.ctor p h).2 = some 1 ∧
      (shared_ptr.ctor p h).1.toBool = true) ∧
    (p = 0 →
      (shared_ptr.ctor p h).2 = h ∧
      (shared_ptr.ctor p h).1.ptrToControlBlock_ = 0 ∧
      (shared_ptr.ctor p h).1.get = 0 ∧
      (shared_ptr.ctor p h).1.use_count (shared_ptr.ctor p h).2 = some 0 ∧
      (shared_ptr.ctor p h).1.toBool = false) := by
  constructor
  · intro hp
    have e : shared_ptr.ctor p h
        = ({ ptr_ := p, ptrToControlBlock_ := h.newControlBlock.1 }, h.newControlBlock.2) := by
      simp [shared_ptr.ctor, hp]
    rw [e]
    refine ⟨Heap.newControlBlock_fst_ne_zero h, Heap.newControlBlock_fresh h,
      Heap.newControlBlock_block_self h, fun c hc => Heap.newControlBlock_block_ne h c hc,
      rfl, rfl, rfl, ?_, ?_⟩
    · simp only [shared_ptr.use_count, if_neg (Heap.newControlBlock_fst_ne_zero h),
        Heap.newControlBlock_block_self]
      rfl
    · simp [shared_ptr.toBool, hp]
  · intro hp
    subst hp
    simp [shared_ptr.ctor, shared_ptr.get, shared_ptr.use_count, shared_ptr.toBool]

/-! ## Assignment between handles on the same object -/

/-- C8: when both handles are empty or both point at the same object (in particular when a
handle is assigned to itself), copy assignment and move assignment return both handles and the
whole free store (every control block with its counters, the objects, the log of deleter
invocations and deallocations) unchanged. -/
theorem assign_same_object_is_noop (self other : shared_ptr) (h : Heap T)
    (hsame : (self.ptr_ = 0 ∧ other.ptr_ = 0) ∨ self.ptr_ = other.ptr_) :
    self.assign other h = some (self, h) ∧
    self.moveAssign other h = some (self, other, h) := by
  have hc : self.ptr_ = other.ptr_ ∨ (self.ptr_ = 0 ∧ other.ptr_ = 0) := hsame.symm
  exact ⟨by simp only [shared_ptr.assign, if_pos hc],
    by simp only [shared_ptr.moveAssign, if_pos hc]⟩

/-- Witness for C8: two handles on the object at `10`, sharing control block `1`; and a handle
assigned to itself. -/
theorem assign_same_object_is_noop_witness :
    ((shared_ptr.mk 10 1).assign (shared_ptr.mk 10 1) (shared_ptr.ctor 10 heap42).2
        = some (shared_ptr.mk 10 1, (shared_ptr.ctor 10 heap42).2) ∧
      (shared_ptr.mk 10 1).moveAssign (shared_ptr.mk 10 1) (shared_ptr.ctor 10 heap42).2
        = some (shared_ptr.mk 10 1, shared_ptr.mk 10 1, (shared_ptr.ctor 10 heap42).2)) :=
  assign_same_object_is_noop (shared_ptr.mk 10 1) (shared_ptr.mk 10 1)
    (shared_ptr.ctor 10 heap42).2 (Or.inr rfl)

/-! ## Move construction -/

/-- C9 fails as stated: move-constructing `B` from a handle `A` that has been `release()`d
(null object pointer, control block kept) takes the `else` path of the guard `if (other.ptr_)`:
`B` does not receive the control-block pointer of `A`, `A` keeps it, `A.use_count()` is `1`
rather than `0`, and `B.use_count()` is `0` rather than the former `A.use_count()`. -/
theorem move_from_released_handle :
    releasedHandle.toBool = false ∧
    releasedHandle.ptrToControlBlock_ = 1 ∧
    releasedHandle.use_count (shared_ptr.ctor 10 heap42).2 = some 1 ∧
    releasedHandle.move.1.ptrToControlBlock_ ≠ releasedHandle.ptrToControlBlock_ ∧
    releasedHandle.move.2.ptrToControlBlock_ ≠ 0 ∧
    releasedHandle.move.2.use_count (shared_ptr.ctor 10 heap42).2 ≠ some 0 ∧
    releasedHandle.move.1.use_count (shared_ptr.ctor 10 heap42).2
      ≠ releasedHandle.use_count (shared_ptr.ctor 10 heap42).2 := by
  decide

/-- C9, amended: for a handle `A` whose control-block pointer is null whenever its object pointer
is null, move construction hands both pointers of `A` to `B`, leaves `A` with both pointers null
(`bool(A) == false`, `A.use_count() == 0`) and does not touch the free store, so
`B.use_count()` is the former `A.use_count()`; an empty `A` yields an empty `B`. -/
theorem move_ctor_transfers (A : shared_ptr) (h : Heap T)
    (hA : A.ptr_ = 0 → A.ptrToControlBlock_ = 0) :
    A.move.1 = A ∧
    A.move.2 = { ptr_ := 0, ptrToControlBlock_ := 0 } ∧
    A.move.2.toBool = false ∧
    A.move.2.use_count h = some 0 ∧
    A.move.1.use_count h = A.use_count h ∧
    (A.toBool = false → A.move.1 = { ptr_ := 0, ptrToControlBlock_ := 0 }) := by
  by_cases hp : A.ptr_ = 0
  · have hcb := hA hp
    have eA : A = { ptr_ := 0, ptrToControlBlock_ := 0 } := by
      cases A; simp_all
    subst eA
    simp [shared_ptr.move, shared_ptr.toBool, shared_ptr.use_count]
  · simp [shared_ptr.move, hp, shared_ptr.toBool, shared_ptr.use_count]

/-- Witness for C9: moving from the only owner of the object at `10`. -/
theorem move_ctor_transfers_witness :
    (shared_ptr.mk 10 1).move.1 = shared_ptr.mk 10 1 ∧
    (shared_ptr.mk 10 1).move.2 = { ptr_ := 0, ptrToControlBlock_ := 0 } ∧
    (shared_ptr.mk 10 1).move.2.toBool = false ∧
    (shared_ptr.mk 10 1).move.2.use_count (shared_ptr.ctor 10 heap42).2 = some 0 ∧
    (shared_ptr.mk 10 1).move.1.use_count (shared_ptr.ctor 10 heap42).2
      = (shared_ptr.mk 10 1).use_count (shared_ptr.ctor 10 heap42).2 ∧
    ((shared_ptr.mk 10 1).toBool = false →
      (shared_ptr.mk 10 1).move.1 = { ptr_ := 0, ptrToControlBlock_ := 0 }) :=
  move_ctor_transfers (shared_ptr.mk 10 1) (shared_ptr.ctor 10 heap42).2 (by decide)

/-! ## The release protocol -/

namespace Heap

@[simp] theorem deleteObject_blocks (h : Heap T) (p : Nat) :
    (h.deleteObject p).blocks = h.blocks := by
  unfold deleteObject; split <;> rfl

@[simp] theorem deleteObject_log (h : Heap T) (p : Nat) : (h.deleteObject p).log = h.log := by
  unfold deleteObject; split <;> rfl

@[simp] theorem invokeDeleter_blocks (h : Heap T) (d : Deleter) (p : Nat) :
    (h.invokeDeleter d p).blocks = h.blocks := by
  cases d <;> simp [invokeDeleter]

@[simp] theorem invokeDeleter_log (h : Heap T) (d : Deleter) (p : Nat) :
    (h.invokeDeleter d p).log = h.log ++ [Event.invokeDeleter d p] := by
  cases d <;> simp [invokeDeleter]

theorem block_congr (h h1 : Heap T) (e : h1.blocks = h.blocks) (c : Nat) :
    h1.block c = h.block c := by
  cases c <;> simp [block, e]

@[simp] theorem invokeDeleter_block (h : Heap T) (d : Deleter) (p c : Nat) :
    (h.invokeDeleter d p).block c = h.block c :=
  block_congr _ _ (invokeDeleter_blocks h d p) c

@[simp] theorem deleteBlock_log (h : Heap T) (a : Nat) :
    (h.deleteBlock a).log = h.log ++ [Event.deleteBlock a] := rfl

theorem deleteBlock_block_self (h : Heap T) (a : Nat) (b : controlBlock)
    (hb : h.block a = some b) : (h.deleteBlock a).block a = none := by
  have e := block_store_self h a b none hb
  rw [← e]
  exact block_congr _ _ rfl a

theorem deleteBlock_block_ne (h : Heap T) (a c : Nat) (hc : c ≠ a) :
    (h.deleteBlock a).block c = h.block c := by
  have e := block_store_ne h a c none hc
  rw [← e]
  exact block_congr _ _ rfl c

@[simp] theorem deleteBlock_objects (h : Heap T) (a : Nat) :
    (h.deleteBlock a).objects = h.objects :=
  store_objects h a none

end Heap

namespace shared_ptr

/-- The code of `cleanUp()` on an allocated control block, in one equation. -/
theorem cleanUp_eq (self : shared_ptr) (h : Heap T) (b : controlBlock)
    (hb : h.block self.ptrToControlBlock_ = some b) :
    self.cleanUp h =
      if (b.sharedRefs_ + (SIZE_MOD - 1)) % SIZE_MOD = 0 then
        some ({ ptr_ := 0, ptrToControlBlock_ := 0 },
          (((h.store self.ptrToControlBlock_
              (some { b with sharedRefs_ := (b.sharedRefs_ + (SIZE_MOD - 1)) % SIZE_MOD })).invokeDeleter
            b.deleter_ self.ptr_).deleteBlock self.ptrToControlBlock_))
      else
        some (self, h.store self.ptrToControlBlock_
          (some { b with sharedRefs_ := (b.sharedRefs_ + (SIZE_MOD - 1)) % SIZE_MOD })) := by
  simp only [cleanUp, Heap.decShared, Heap.modify_eq h _ _ b hb,
    Heap.block_store_self h _ b _ hb]

/-- The handle that holds the last reference: the deleter runs on its object pointer, then the
control block is deleted. -/
theorem cleanUp_last (self : shared_ptr) (h : Heap T) (b : controlBlock)
    (hb : h.block self.ptrToControlBlock_ = some b) (hone : b.sharedRefs_ = 1) :
    ∃ h1, self.cleanUp h = some ({ ptr_ := 0, ptrToControlBlock_ := 0 }, h1) ∧
      h1.block self.ptrToControlBlock_ = none ∧
      (∀ c, c ≠ self.ptrToControlBlock_ → h1.block c = h.block c) ∧
      h1.log = h.log ++ [Event.invokeDeleter b.deleter_ self.ptr_,
        Event.deleteBlock self.ptrToControlBlock_] := by
  have hz : (b.sharedRefs_ + (SIZE_MOD - 1)) % SIZE_MOD = 0 := by
    rw [hone]; decide
  refine ⟨_, by rw [cleanUp_eq self h b hb, if_pos hz], ?_, ?_, ?_⟩
  · apply Heap.deleteBlock_block_self _ _ { b with sharedRefs_ := 0 }
    rw [Heap.invokeDeleter_block, Heap.block_store_self h _ b _ hb, hz]
  · intro c hc
    rw [Heap.deleteBlock_block_ne _ _ _ hc, Heap.invokeDeleter_block,
      Heap.block_store_ne _ _ _ _ hc]
  · simp [Heap.store_log]

/-- A handle that does not hold the last reference: the counter drops by one, nothing else
happens. -/
theorem cleanUp_shared (self : shared_ptr) (h : Heap T) (b : controlBlock)
    (hb : h.block self.ptrToControlBlock_ = some b) (hlo : 2 ≤ b.sharedRefs_)
    (hhi : b.sharedRefs_ < SIZE_MOD) :
    ∃ h1, self.cleanUp h = some (self, h1) ∧
      h1.block self.ptrToControlBlock_ = some { b with sharedRefs_ := b.sharedRefs_ - 1 } ∧
      (∀ c, c ≠ self.ptrToControlBlock_ → h1.block c = h.block c) ∧
      h1.log = h.log ∧ h1.objects = h.objects := by
  have hv : (b.sharedRefs_ + (SIZE_MOD - 1)) % SIZE_MOD = b.sharedRefs_ - 1 := by
    simp only [SIZE_MOD] at hhi ⊢; omega
  have hz : ¬ (b.sharedRefs_ + (SIZE_MOD - 1)) % SIZE_MOD = 0 := by
    rw [hv]; omega
  refine ⟨_, by rw [cleanUp_eq self h b hb, if_neg hz], ?_, ?_, ?_, ?_⟩
  · rw [Heap.block_store_self h _ b _ hb, hv]
  · intro c hc
    rw [Heap.block_store_ne _ _ _ _ hc]
  · exact Heap.store_log _ _ _
  · exact Heap.store_objects _ _ _

/-- The code of `sharedRefs_++` on an allocated control block. -/
theorem incShared_eq (h : Heap T) (a : Nat) (b : controlBlock) (hb : h.block a = some b) :
    ∃ h1, h.incShared a = some h1 ∧
      h1.block a = some { b with sharedRefs_ := (b.sharedRefs_ + 1) % SIZE_MOD } ∧
      (∀ c, c ≠ a → h1.block c = h.block c) ∧ h1.log = h.log ∧ h1.objects = h.objects := by
  refine ⟨_, by rw [Heap.incShared, Heap.modify_eq h _ _ b hb], ?_, ?_, ?_, ?_⟩
  · rw [Heap.block_store_self h _ b _ hb]
  · intro c hc
    rw [Heap.block_store_ne _ _ _ _ hc]
  · exact Heap.store_log _ _ _
  · exact Heap.store_objects _ _ _

theorem valid_empty (a : shared_ptr) (h : Heap T) (hv : a.valid h = true) (hp : a.ptr_ = 0) :
    a = { ptr_ := 0, ptrToControlBlock_ := 0 } := by
  cases a with
  | mk p c =>
    simp only at hp
    subst hp
    simpa [valid] using hv

theorem valid_block (a : shared_ptr) (h : Heap T) (hv : a.valid h = true) (hp : a.ptr_ ≠ 0) :
    ∃ b, h.block a.ptrToControlBlock_ = some b ∧ 1 ≤ b.sharedRefs_ ∧
      b.sharedRefs_ + 1 < SIZE_MOD := by
  simp only [valid, if_neg hp] at hv
  cases hb : h.block a.ptrToControlBlock_ with
  | none => simp [hb] at hv
  | some b =>
    simp only [hb, Bool.and_eq_true, decide_eq_true_eq] at hv
    exact ⟨b, rfl, hv.1, hv.2⟩

/-- On a handle in good standing `cleanUp()` runs the release protocol once, without undefined
behaviour. -/
theorem cleanUp_released (a : shared_ptr) (h : Heap T) (hv : a.valid h = true)
    (hp : a.ptr_ ≠ 0) : ∃ r, a.cleanUp h = some r ∧ Released a h r.2 := by
  obtain ⟨b, hb, hlo, hhi⟩ := valid_block a h hv hp
  by_cases hone : b.sharedRefs_ = 1
  · obtain ⟨h1, e, hfree, hframe, hlog⟩ := cleanUp_last a h b hb hone
    exact ⟨_, e, b, hb, hframe, fun _ => ⟨hfree, hlog⟩, fun hne => absurd hone hne⟩
  · obtain ⟨h1, e, hblk, hframe, hlog, _⟩ :=
      cleanUp_shared a h b hb (by omega) (by omega)
    exact ⟨_, e, b, hb, hframe, fun h1 => absurd h1 hone, fun _ => ⟨hblk, hlog⟩⟩

end shared_ptr

/-! ## Assignment between handles on different objects -/

/-- C10: for a non-empty handle `A` with `use_count() == 1`, copy-constructing `B` from `A` and
then destroying `A` succeeds, leaves `B` non-empty with `B.use_count() == 1` and
`B.get() == A.get()`, invokes no deleter and deletes nothing (the log and the objects of the
free store are unchanged), so `*B` is what `*A` was. -/
theorem copy_then_destroy_source (A : shared_ptr) (h : Heap T) (hp : A.ptr_ ≠ 0)
    (hone : A.use_count h = some 1) :
    ∃ B h1 h2, A.copy h = some (B, h1) ∧ A.dtor h1 = some h2 ∧
      B.toBool = true ∧ B.use_count h2 = some 1 ∧ B.get = A.get ∧
      h2.log = h.log ∧ h2.objects = h.objects ∧ B.deref h2 = A.deref h := by
  have hcb : A.ptrToControlBlock_ ≠ 0 := by
    intro e
    simp [shared_ptr.use_count, e] at hone
  simp only [shared_ptr.use_count, if_neg hcb] at hone
  cases hb : h.block A.ptrToControlBlock_ with
  | none => simp [hb] at hone
  | some b =>
    simp only [hb, Option.map_some', Option.some.injEq] at hone
    have hmod : b.sharedRefs_ % 4294967296 = 1 := by
      unfold toInt at hone
      split at hone <;> omega
    obtain ⟨h1, e1, hblk1, _, hlog1, hobj1⟩ := shared_ptr.incShared_eq h _ b hb
    have hz : ¬ ((b.sharedRefs_ + 1) % SIZE_MOD + (SIZE_MOD - 1)) % SIZE_MOD = 0 := by
      simp only [SIZE_MOD]; omega
    have hval : toInt (((b.sharedRefs_ + 1) % SIZE_MOD + (SIZE_MOD - 1)) % SIZE_MOD) = 1 := by
      unfold toInt
      simp only [SIZE_MOD]
      split <;> omega
    have e2 := shared_ptr.cleanUp_eq A h1 _ hblk1
    simp only [if_neg hz] at e2
    obtain ⟨h2, e3, hblk2, hlog2, hobj2⟩ : ∃ h2, A.cleanUp h1 = some (A, h2) ∧
        h2.block A.ptrToControlBlock_ = some { b with
          sharedRefs_ := ((b.sharedRefs_ + 1) % SIZE_MOD + (SIZE_MOD - 1)) % SIZE_MOD } ∧
        h2.log = h1.log ∧ h2.objects = h1.objects :=
      ⟨_, e2, Heap.block_store_self h1 _ _ _ hblk1, Heap.store_log _ _ _,
        Heap.store_objects _ _ _⟩
    refine ⟨{ ptr_ := A.ptr_, ptrToControlBlock_ := A.ptrToControlBlock_ }, h1, h2, ?_, ?_,
      ?_, ?_, rfl, ?_, ?_, ?_⟩
    · simp only [shared_ptr.copy, if_pos hp, e1, Option.map_some']
    · simp only [shared_ptr.dtor, if_pos (Or.inl hp), e3, Option.map_some']
    · simp [shared_ptr.toBool, hp]
    · simp only [shared_ptr.use_count, if_neg hcb, hblk2, Option.map_some', hval]
    · rw [hlog2, hlog1]
    · rw [hobj2, hobj1]
    · simp only [shared_ptr.deref, hobj2, hobj1]

/-- Witness for C10: the only owner of the `42` at address `10`; `*B` is `42` afterwards. -/
theorem copy_then_destroy_source_witness :
    (shared_ptr.mk 10 1).use_count heapOwned = some 1 ∧
    ∃ B h1 h2, (shared_ptr.mk 10 1).copy heapOwned = some (B, h1) ∧
      (shared_ptr.mk 10 1).dtor h1 = some h2 ∧ B.toBool = true ∧
      B.use_count h2 = some 1 ∧ B.get = 10 ∧ h2.log = [] ∧ B.deref h2 = some 42 :=
  ⟨by decide,
    (copy_then_destroy_source (shared_ptr.mk 10 1) heapOwned (by decide) (by decide)).elim
      fun B hB => hB.elim fun h1 hh => hh.elim fun h2 hc =>
        ⟨B, h1, h2, hc.1, hc.2.1, hc.2.2.1, hc.2.2.2.1, hc.2.2.2.2.1, hc.2.2.2.2.2.1,
          hc.2.2.2.2.2.2.2⟩⟩

/-! ## Upgrading an observer after the last owner is gone -/

/-- C3 (the code at the claim's input): after `shared_ptr<int> s(p10); weak_ptr<int> w(s);` the
owner has `use_count() == 1`; destroying it invokes the deleter and deletes control block `1`
although `weakRefs_` is `1`.  The observer still holds the non-null pointers `(10, 1)`, so
`w.lock()` takes the branch that executes `ptrToControlBlock_->sharedRefs_++` on the deleted
block: undefined behaviour, not an empty handle. -/
theorem lock_after_last_owner_destroyed :
    (shared_ptr.ctor 10 heap42).1.use_count heapOwned = some 1 ∧
    expiredObserver.map (fun s => (s.1, s.2.block 1, s.2.log))
      = some (weak_ptr.mk 10 1, none,
          [Event.invokeDeleter Deleter.defaultDelete 10, Event.deleteBlock 1]) ∧
    expiredObserver.map (fun s => (s.1.lock s.2).map fun r => r.1) = some none := by
  decide

/-! ## Counting in lists of handle objects -/

theorem countP_set_add {α : Type} (P : α → Bool) (l : List α) (i : Nat) (x y : α)
    (hx : l[i]? = some x) :
    (l.set i y).countP P + (if P x then 1 else 0) = l.countP P + (if P y then 1 else 0) := by
  induction l generalizing i with
  | nil => simp at hx
  | cons a t ih =>
    cases i with
    | zero =>
      simp only [List.getElem?_cons_zero, Option.some.injEq] at hx
      subst hx
      simp only [List.set_cons_zero, List.countP_cons]
      omega
    | succ n =>
      simp only [List.getElem?_cons_succ] at hx
      have := ih n hx
      simp only [List.set_cons_succ, List.countP_cons]
      omega

namespace Prog

theorem handle_some (s : Prog T) (i : Nat) (sp : shared_ptr) (hs : s.handle i = some sp) :
    s.vars[i]? = some (some sp) := by
  unfold handle at hs
  cases hv : s.vars[i]? with
  | none => simp [hv] at hs
  | some v =>
    simp only [hv, Option.getD_some] at hs
    rw [hs]

theorem handle_mem (s : Prog T) (i : Nat) (sp : shared_ptr) (hs : s.handle i = some sp) :
    some sp ∈ s.vars :=
  List.getElem?_mem (handle_some s i sp hs)

theorem owners_le_liveHandles (p : Nat) (s : Prog T) : owners p s ≤ s.liveHandles := by
  apply List.countP_mono_left
  intro v _ hv
  cases v with
  | none => simp [refers] at hv
  | some sp => rfl

theorem owners_pos_of_mem (p cb : Nat) (s : Prog T)
    (hm : some ({ ptr_ := p, ptrToControlBlock_ := cb } : shared_ptr) ∈ s.vars) :
    0 < owners p s :=
  List.countP_pos_iff.mpr ⟨_, hm, by simp [refers]⟩

theorem refers_empty (p : Nat) (hp : p ≠ 0) :
    refers p (some { ptr_ := 0, ptrToControlBlock_ := 0 }) = false := by
  simp [refers, Ne.symm hp]

theorem refers_none (p : Nat) : refers p none = false := rfl

theorem refers_owner (p cb : Nat) :
    refers p (some { ptr_ := p, ptrToControlBlock_ := cb }) = true := by
  simp [refers]

/-- One statement keeps the invariant, never runs into undefined behaviour, and lowers the
number of owners only when it destroys an owner. -/
theorem step_inv (p cb : Nat) (dl : Deleter) (log0 : List Event) (hp : p ≠ 0) (s : Prog T)
    (hI : Inv p cb dl log0 s) (op : Op) :
    ∃ s1, s.step op = some s1 ∧ Inv p cb dl log0 s1 ∧
      (owners p s1 < owners p s →
        ∃ i, op = Op.destroy i ∧ s.handle i = some { ptr_ := p, ptrToControlBlock_ := cb }) := by
  obtain ⟨hv, hcap, hpos, hzero⟩ := hI
  have hle := owners_le_liveHandles p s
  cases op with
  | copy i =>
    cases hh : s.handle i with
    | none =>
      exact ⟨s, by simp [step, hh], ⟨hv, hcap, hpos, hzero⟩, fun hlt => absurd hlt (by omega)⟩
    | some src =>
      by_cases hroom : s.liveHandles < MAX_HANDLES
      · have hmem := handle_mem s i src hh
        rcases hv _ hmem with h0 | h0 | h0
        · cases h0
        · -- copying an empty handle
          cases h0
          refine ⟨{ heap := s.heap, vars := s.vars ++ [some { ptr_ := 0, ptrToControlBlock_ := 0 }] },
            by simp [step, hh, hroom, shared_ptr.copy], ?_, fun hlt => ?_⟩
          · have ho : owners p (Prog.mk s.heap
                (s.vars ++ [some { ptr_ := 0, ptrToControlBlock_ := 0 }])) = owners p s := by
              simp [owners, List.countP_singleton, refers_empty p hp]
            refine ⟨?_, ?_, ?_, ?_⟩
            · intro v hvm
              rcases List.mem_append.mp hvm with h1 | h1
              · exact hv v h1
              · simp only [List.mem_singleton] at h1
                exact Or.inr (Or.inl h1)
            · simp only [liveHandles, List.countP_append, List.countP_singleton,
                Option.isSome_some, if_true]
              simp only [liveHandles] at hroom
              omega
            · rw [ho]; exact hpos
            · rw [ho]; exact hzero
          · exfalso
            simp [owners, List.countP_singleton, refers_empty p hp] at hlt
        · -- copying an owner
          cases h0
          have hopos := owners_pos_of_mem p cb s hmem
          obtain ⟨hblk, hlog⟩ := hpos hopos
          obtain ⟨h1, e, hblk1, _, hlog1, _⟩ := shared_ptr.incShared_eq s.heap cb _ hblk
          have hmod : (owners p s + 1) % SIZE_MOD = owners p s + 1 := by
            apply Nat.mod_eq_of_lt
            simp only [MAX_HANDLES] at hroom
            simp only [SIZE_MOD]
            omega
          have ho : owners p (Prog.mk h1
              (s.vars ++ [some { ptr_ := p, ptrToControlBlock_ := cb }])) = owners p s + 1 := by
            simp [owners, List.countP_singleton, refers_owner p cb]
          refine ⟨{ heap := h1, vars := s.vars ++ [some { ptr_ := p, ptrToControlBlock_ := cb }] },
            by simp [step, hh, hroom, shared_ptr.copy, hp, e], ?_, fun hlt => ?_⟩
          · refine ⟨?_, ?_, ?_, ?_⟩
            · intro v hvm
              rcases List.mem_append.mp hvm with h2 | h2
              · exact hv v h2
              · simp only [List.mem_singleton] at h2
                exact Or.inr (Or.inr h2)
            · simp only [liveHandles, List.countP_append, List.countP_singleton,
                Option.isSome_some, if_true]
              simp only [liveHandles] at hroom
              omega
            · intro _
              rw [ho]
              exact ⟨by rw [hblk1, hmod], by rw [hlog1, hlog]⟩
            · intro hz
              rw [ho] at hz
              omega
          · exfalso
            rw [ho] at hlt
            omega
      · exact ⟨s, by simp [step, hh, hroom], ⟨hv, hcap, hpos, hzero⟩,
          fun hlt => absurd hlt (by omega)⟩
  | move i =>
    cases hh : s.handle i with
    | none =>
      exact ⟨s, by simp [step, hh], ⟨hv, hcap, hpos, hzero⟩, fun hlt => absurd hlt (by omega)⟩
    | some src =>
      by_cases hroom : s.liveHandles < MAX_HANDLES
      · have hmem := handle_mem s i src hh
        have hget := handle_some s i src hh
        have hlive := countP_set_add Option.isSome s.vars i (some src) (some src.move.2) hget
        have hown := countP_set_add (refers p) s.vars i (some src) (some src.move.2) hget
        have hsum : refers p (some src.move.2) = false ∧
            refers p (some src.move.1) = refers p (some src) := by
          rcases hv _ hmem with h0 | h0 | h0
          · cases h0
          · cases h0
            simp [shared_ptr.move, refers, Ne.symm hp]
          · cases h0
            simp [shared_ptr.move, refers, hp, Ne.symm hp]
        have ho : owners p (Prog.mk s.heap
            (s.vars.set i (some src.move.2) ++ [some src.move.1])) = owners p s := by
          simp only [owners, List.countP_append, List.countP_singleton]
          simp only [owners, hsum.1] at hown ⊢
          rw [hsum.2]
          simp only [Bool.false_eq_true, if_false] at hown
          omega
        refine ⟨{ heap := s.heap, vars := s.vars.set i (some src.move.2) ++ [some src.move.1] },
          by simp [step, hh, hroom], ⟨?_, ?_, ?_, ?_⟩, fun hlt => ?_⟩
        · intro v hvm
          have hmv : some src.move.2 = some { ptr_ := 0, ptrToControlBlock_ := 0 } ∧
              (some src.move.1 = some { ptr_ := 0, ptrToControlBlock_ := 0 } ∨
               some src.move.1 = some { ptr_ := p, ptrToControlBlock_ := cb }) := by
            rcases hv _ hmem with h0 | h0 | h0
            · cases h0
            · cases h0
              simp [shared_ptr.move]
            · cases h0
              simp [shared_ptr.move, hp]
          rcases List.mem_append.mp hvm with h1 | h1
          · rcases List.mem_or_eq_of_mem_set h1 with h2 | h2
            · exact hv v h2
            · exact Or.inr (Or.inl (h2.trans hmv.1))
          · simp only [List.mem_singleton] at h1
            rcases hmv.2 with h3 | h3
            · exact Or.inr (Or.inl (h1.trans h3))
            · exact Or.inr (Or.inr (h1.trans h3))
        · simp only [liveHandles, List.countP_append, List.countP_singleton,
            Option.isSome_some, if_true] at hlive hroom ⊢
          omega
        · rw [ho]; exact hpos
        · rw [ho]; exact hzero
        · exfalso
          rw [ho] at hlt
          omega
      · exact ⟨s, by simp [step, hh, hroom], ⟨hv, hcap, hpos, hzero⟩,
          fun hlt => absurd hlt (by omega)⟩
  | destroy i =>
    cases hh : s.handle i with
    | none =>
      exact ⟨s, by simp [step, hh], ⟨hv, hcap, hpos, hzero⟩, fun hlt => absurd hlt (by omega)⟩
    | some src =>
      have hmem := handle_mem s i src hh
      have hget := handle_some s i src hh
      have hlive := countP_set_add Option.isSome s.vars i (some src) none hget
      have hown := countP_set_add (refers p) s.vars i (some src) none hget
      have hvars : ∀ v ∈ s.vars.set i none, v = none ∨
          v = some { ptr_ := 0, ptrToControlBlock_ := 0 } ∨
          v = some { ptr_ := p, ptrToControlBlock_ := cb } := by
        intro v hvm
        rcases List.mem_or_eq_of_mem_set hvm with h2 | h2
        · exact hv v h2
        · exact Or.inl h2
      have hcap1 : (s.vars.set i none).countP Option.isSome ≤ MAX_HANDLES := by
        simp only [liveHandles, Option.isSome_some, Option.isSome_none, if_true,
          Bool.false_eq_true, if_false] at hlive hcap ⊢
        omega
      rcases hv _ hmem with h0 | h0 | h0
      · cases h0
      · -- destroying an empty handle
        cases h0
        have ho : owners p { heap := s.heap, vars := s.vars.set i none } = owners p s := by
          simp only [owners, refers_empty p hp, refers_none, Bool.false_eq_true,
            if_false] at hown ⊢
          omega
        refine ⟨{ heap := s.heap, vars := s.vars.set i none },
          by simp [step, hh, shared_ptr.dtor], ⟨hvars, hcap1, ?_, ?_⟩, fun hlt => ?_⟩
        · rw [ho]; exact hpos
        · rw [ho]; exact hzero
        · exfalso
          rw [ho] at hlt
          omega
      · -- destroying an owner
        cases h0
        have hopos := owners_pos_of_mem p cb s hmem
        obtain ⟨hblk, hlog⟩ := hpos hopos
        have ho : ∀ h1 : Heap T,
            owners p { heap := h1, vars := s.vars.set i none } + 1 = owners p s := by
          intro h1
          simp only [owners, refers_owner p cb, refers_none, Bool.false_eq_true, if_false,
            if_true] at hown ⊢
          omega
        have hdt : ∀ r, ({ ptr_ := p, ptrToControlBlock_ := cb } : shared_ptr).cleanUp s.heap
            = some r → s.step (Op.destroy i) = some { heap := r.2, vars := s.vars.set i none } := by
          intro r hr
          simp [step, hh, shared_ptr.dtor, hp, hr]
        by_cases hone : owners p s = 1
        · obtain ⟨h1, e, hfree, _, hlog1⟩ :=
            shared_ptr.cleanUp_last { ptr_ := p, ptrToControlBlock_ := cb } s.heap _ hblk hone
          have ho1 := ho h1
          refine ⟨{ heap := h1, vars := s.vars.set i none }, hdt _ e,
            ⟨hvars, hcap1, fun h => absurd h (by omega), fun _ => ⟨hfree, ?_⟩⟩,
            fun _ => ⟨i, rfl, hh⟩⟩
          simp only at hlog1 ⊢
          rw [hlog1, hlog]
        · have hlt : owners p s < SIZE_MOD := by
            simp only [MAX_HANDLES] at hcap
            simp only [SIZE_MOD]
            omega
          obtain ⟨h1, e, hblk1, _, hlog1, _⟩ :=
            shared_ptr.cleanUp_shared { ptr_ := p, ptrToControlBlock_ := cb } s.heap _ hblk
              (by simp only; omega) hlt
          have ho1 := ho h1
          refine ⟨{ heap := h1, vars := s.vars.set i none }, hdt _ e,
            ⟨hvars, hcap1, fun _ => ⟨?_, ?_⟩, fun h => absurd h (by omega)⟩,
            fun _ => ⟨i, rfl, hh⟩⟩
          · simp only at hblk1 ⊢
            rw [hblk1]
            have : owners p { heap := h1, vars := s.vars.set i none } = owners p s - 1 := by
              omega
            rw [this]
          · simp only at hlog1 ⊢
            rw [hlog1, hlog]

/-- Constructing the first handle from a non-null pointer establishes the invariant with one
owner. -/
theorem start_inv (h0 : Heap T) (p : Nat) (hp : p ≠ 0) (d : Option Deleter) :
    ∃ s0, start h0 p d = some s0 ∧
      Inv p (h0.blocks.length + 1) (storedDeleter d) h0.log s0 ∧
      s0.vars = [some { ptr_ := p, ptrToControlBlock_ := h0.blocks.length + 1 }] := by
  have ector : shared_ptr.ctor p h0
      = ({ ptr_ := p, ptrToControlBlock_ := h0.blocks.length + 1 }, h0.newControlBlock.2) := by
    simp [shared_ptr.ctor, hp, Heap.newControlBlock]
  have hfresh : h0.newControlBlock.2.block (h0.blocks.length + 1) = some {} :=
    Heap.newControlBlock_block_self h0
  have hmax : (1 : Nat) ≤ MAX_HANDLES := by decide
  cases d with
  | none =>
    refine ⟨_, rfl, ⟨?_, ?_, ?_, ?_⟩, by rw [ector]⟩
    · intro v hv
      rw [ector] at hv
      simp only [List.mem_singleton] at hv
      exact Or.inr (Or.inr hv)
    · rw [ector]; simpa [liveHandles] using hmax
    · intro _
      rw [ector]
      simp only [owners, List.countP_singleton, refers_owner, if_true]
      exact ⟨hfresh, rfl⟩
    · intro hz
      rw [ector] at hz
      simp [owners, List.countP_singleton, refers_owner] at hz
  | some dd =>
    obtain ⟨h1, e, hblk, hlog⟩ : ∃ h1,
        h0.newControlBlock.2.setDeleter (h0.blocks.length + 1) dd = some h1 ∧
        h1.block (h0.blocks.length + 1)
          = some { sharedRefs_ := 1, weakRefs_ := 0, deleter_ := dd } ∧
        h1.log = h0.log :=
      ⟨_, by rw [Heap.setDeleter, Heap.modify_eq _ _ _ _ hfresh],
        Heap.block_store_self _ _ _ _ hfresh, Heap.store_log _ _ _⟩
    refine ⟨Prog.mk h1 [some { ptr_ := p, ptrToControlBlock_ := h0.blocks.length + 1 }],
      by simp [start, shared_ptr.ctorDeleter, ector, e], ⟨?_, ?_, ?_, ?_⟩, rfl⟩
    · intro v hv
      simp only [List.mem_singleton] at hv
      exact Or.inr (Or.inr hv)
    · simpa [liveHandles] using hmax
    · intro _
      simp only [owners, List.countP_singleton, refers_owner, if_true]
      exact ⟨hblk, hlog⟩
    · intro hz
      simp [owners, List.countP_singleton, refers_owner] at hz

/-- A sequence of statements keeps the invariant and never runs into undefined behaviour. -/
theorem run_inv (p cb : Nat) (dl : Deleter) (log0 : List Event) (hp : p ≠ 0) (ops : List Op) :
    ∀ s : Prog T, Inv p cb dl log0 s → ∃ s1, s.run ops = some s1 ∧ Inv p cb dl log0 s1 := by
  induction ops with
  | nil => exact fun s hI => ⟨s, rfl, hI⟩
  | cons op ops ih =>
    intro s hI
    obtain ⟨s1, e1, hI1, _⟩ := step_inv p cb dl log0 hp s hI op
    obtain ⟨s2, e2, hI2⟩ := ih s1 hI1
    exact ⟨s2, by simp [run, e1, e2], hI2⟩

/-- Every client program on one allocation runs to completion in a state satisfying the
invariant. -/
theorem exec_inv (h0 : Heap T) (p : Nat) (hp : p ≠ 0) (d : Option Deleter) (ops : List Op) :
    ∃ s, exec h0 p d ops = some s ∧
      Inv p (h0.blocks.length + 1) (storedDeleter d) h0.log s := by
  obtain ⟨s0, e0, hI0, _⟩ := start_inv h0 p hp d
  obtain ⟨s, e, hI⟩ := run_inv p _ _ _ hp ops s0 hI0
  exact ⟨s, by simp [exec, e0, e], hI⟩

/-- In a state satisfying the invariant, `use_count()` of a live non-empty handle is the
number of owners converted to `int`. -/
theorem use_count_of_inv (p cb : Nat) (dl : Deleter) (log0 : List Event) (s : Prog T)
    (hI : Inv p cb dl log0 s) (sp : shared_ptr) (hm : some sp ∈ s.vars)
    (hne : sp.toBool = true) :
    sp.ptr_ = p ∧ sp.use_count s.heap = some (toInt (owners p s)) := by
  obtain ⟨hv, _, hpos, _⟩ := hI
  rcases hv _ hm with h0 | h0 | h0
  · cases h0
  · cases h0
    simp [shared_ptr.toBool] at hne
  · cases h0
    obtain ⟨hblk, _⟩ := hpos (owners_pos_of_mem p cb s hm)
    have hcb : cb ≠ 0 := by
      intro e
      rw [e, Heap.block_zero] at hblk
      cases hblk
    exact ⟨rfl, by simp [shared_ptr.use_count, hcb, hblk]⟩

end Prog

theorem toInt_of_lt (n : Nat) (hn : n < 2147483648) : toInt n = (n : Int) := by
  unfold toInt
  split <;> omega

/-! ## Reference counting over whole programs -/

/-- C1, amended: for every sequence of copy constructions, move constructions and destructions
of handles that derive from one `shared_ptr` constructed from a non-null pointer `p` (with or
without a deleter), the program runs without undefined behaviour, and after each statement
every live non-empty handle points at `p` and its `use_count()` is the number of live handles
pointing at `p` converted to `int`: equal to that number whenever it is below `2^31`. -/
theorem use_count_counts_owners (h0 : Heap T) (p : Nat) (hp : p ≠ 0) (d : Option Deleter)
    (ops : List Op) (k : Nat) :
    ∃ s, Prog.exec h0 p d (ops.take k) = some s ∧
      ∀ sp, some sp ∈ s.vars → sp.toBool = true →
        sp.ptr_ = p ∧
        sp.use_count s.heap = some (toInt (Prog.owners p s)) ∧
        (Prog.owners p s < 2147483648 → sp.use_count s.heap = some (Prog.owners p s : Int)) := by
  obtain ⟨s, e, hI⟩ := Prog.exec_inv h0 p hp d (ops.take k)
  refine ⟨s, e, fun sp hm hne => ?_⟩
  obtain ⟨h1, h2⟩ := Prog.use_count_of_inv p _ _ _ s hI sp hm hne
  exact ⟨h1, h2, fun hlt => by rw [h2, toInt_of_lt _ hlt]⟩

/-- C2: for every sequence of copy constructions, move constructions and destructions of handles
over one allocation made from a non-null pointer `p` (default or custom deleter), the program
runs without undefined behaviour; after each statement, while a handle pointing at `p` is alive
the log is what it was before the first handle was constructed (no deleter call, no
deallocation), and once none is alive the log has grown by exactly one call of the stored
deleter, with argument `p`, followed by the deallocation of the control block.  The statement
that takes the number of owners to zero is the destruction of an owner. -/
theorem deleter_runs_once_at_last_release (h0 : Heap T) (p : Nat) (hp : p ≠ 0)
    (d : Option Deleter) (ops : List Op) (k : Nat) :
    ∃ s, Prog.exec h0 p d (ops.take k) = some s ∧
      (0 < Prog.owners p s → s.heap.log = h0.log) ∧
      (Prog.owners p s = 0 →
        s.heap.log = h0.log ++ [Event.invokeDeleter (storedDeleter d) p,
          Event.deleteBlock (h0.blocks.length + 1)]) ∧
      (∀ op, ∃ s1, s.step op = some s1 ∧
        (0 < Prog.owners p s → Prog.owners p s1 = 0 →
          ∃ i, op = Op.destroy i ∧ (∃ sp, s.handle i = some sp ∧ sp.ptr_ = p) ∧
            s1.heap.log = s.heap.log ++ [Event.invokeDeleter (storedDeleter d) p,
              Event.deleteBlock (h0.blocks.length + 1)])) := by
  obtain ⟨s, e, hI⟩ := Prog.exec_inv h0 p hp d (ops.take k)
  refine ⟨s, e, fun hpos => (hI.2.2.1 hpos).2, fun hz => (hI.2.2.2 hz).2, fun op => ?_⟩
  obtain ⟨s1, e1, hI1, hdes⟩ := Prog.step_inv p _ _ _ hp s hI op
  refine ⟨s1, e1, fun hpos hz => ?_⟩
  obtain ⟨i, hop, hh⟩ := hdes (by omega)
  refine ⟨i, hop, ⟨_, hh, rfl⟩, ?_⟩
  rw [(hI1.2.2.2 hz).2, (hI.2.2.1 hpos).2]

namespace Prog

/-- A copy construction that is executed appends a handle equal to its source. -/
theorem step_copy_vars (s s1 : Prog T) (i : Nat) (src : shared_ptr)
    (hh : s.handle i = some src) (hroom : s.liveHandles < MAX_HANDLES)
    (e : s.step (Op.copy i) = some s1) : s1.vars = s.vars ++ [some src] := by
  simp only [step, hh, if_pos hroom, Option.map_eq_some'] at e
  obtain ⟨r, hr, rfl⟩ := e
  have h1 : r.1 = src := by
    by_cases hq : src.ptr_ = 0
    · simp only [shared_ptr.copy, hq, ne_eq, not_true_eq_false, if_false,
        Option.some.injEq] at hr
      rw [← hr]
      cases src
      simp_all
    · simp only [shared_ptr.copy, ne_eq, hq, not_false_eq_true, if_true,
        Option.map_eq_some'] at hr
      obtain ⟨_, _, rfl⟩ := hr
      rfl
  simp only [h1]

/-- Copying the owner number `0` again and again, as long as storage is left. -/
theorem run_copies (p cb : Nat) (dl : Deleter) (log0 : List Event) (hp : p ≠ 0) (n : Nat) :
    ∀ s : Prog T, Inv p cb dl log0 s →
      s.handle 0 = some { ptr_ := p, ptrToControlBlock_ := cb } →
      s.liveHandles + n ≤ MAX_HANDLES →
      ∃ s1, s.run (List.replicate n (Op.copy 0)) = some s1 ∧ Inv p cb dl log0 s1 ∧
        owners p s1 = owners p s + n ∧
        s1.handle 0 = some { ptr_ := p, ptrToControlBlock_ := cb } := by
  induction n with
  | zero => exact fun s hI hh _ => ⟨s, rfl, hI, rfl, hh⟩
  | succ n ih =>
    intro s hI hh hcap
    have hroom : s.liveHandles < MAX_HANDLES := by omega
    obtain ⟨s1, e1, hI1, _⟩ := step_inv p cb dl log0 hp s hI (Op.copy 0)
    have hvars := step_copy_vars s s1 0 _ hh hroom e1
    have hget := handle_some s 0 _ hh
    have hpos : 0 < s.vars.length := by
      cases hv : s.vars with
      | nil => simp [hv] at hget
      | cons a t => simp
    have hh1 : s1.handle 0 = some { ptr_ := p, ptrToControlBlock_ := cb } := by
      unfold handle
      rw [hvars, List.getElem?_append_left hpos, hget]
      rfl
    have hlive : s1.liveHandles = s.liveHandles + 1 := by
      simp [liveHandles, hvars, List.countP_singleton]
    have hown : owners p s1 = owners p s + 1 := by
      simp [owners, hvars, List.countP_singleton, refers_owner]
    obtain ⟨s2, e2, hI2, ho2, hh2⟩ := ih s1 hI1 hh1 (by omega)
    refine ⟨s2, ?_, hI2, by omega, hh2⟩
    rw [List.replicate_succ]
    simp only [run, e1, Option.some_bind, e2]

/-- The program `shared_ptr<T> v0(p);` followed by `n` copies of `v0`. -/
theorem exec_copies (h0 : Heap T) (p : Nat) (hp : p ≠ 0) (n : Nat)
    (hn : 1 + n ≤ MAX_HANDLES) :
    ∃ s, exec h0 p none (List.replicate n (Op.copy 0)) = some s ∧
      owners p s = 1 + n ∧
      some ({ ptr_ := p, ptrToControlBlock_ := h0.blocks.length + 1 } : shared_ptr) ∈ s.vars ∧
      ({ ptr_ := p, ptrToControlBlock_ := h0.blocks.length + 1 } : shared_ptr).use_count s.heap
        = some (toInt (1 + n)) := by
  obtain ⟨s0, e0, hI0, hv0⟩ := start_inv h0 p hp none
  have hh0 : s0.handle 0 = some { ptr_ := p, ptrToControlBlock_ := h0.blocks.length + 1 } := by
    simp [handle, hv0]
  have hl0 : s0.liveHandles = 1 := by simp [liveHandles, hv0]
  have ho0 : owners p s0 = 1 := by simp [owners, hv0, refers_owner]
  obtain ⟨s1, e1, hI1, ho1, hh1⟩ := run_copies p _ _ _ hp n s0 hI0 hh0 (by omega)
  have hm := handle_mem s1 0 _ hh1
  have hu := (use_count_of_inv p _ _ _ s1 hI1 _ hm (by simp [shared_ptr.toBool, hp])).2
  refine ⟨s1, ?_, by omega, hm, ?_⟩
  · simp only [exec, e0, Option.some_bind, e1]
  · rw [hu, ho1, ho0]

end Prog

/-- C1 fails as stated: after `shared_ptr<int> v0(p10);` and `2^31 - 1` copies of `v0` there
are `2^31` live handles pointing at the object, and `use_count()`, which returns
`static_cast<int>(sharedRefs_)`, is `-2^31`. -/
theorem use_count_wraps_at_two_pow_31 :
    ∃ s, Prog.exec heap42 10 none (List.replicate 2147483647 (Op.copy 0)) = some s ∧
      Prog.owners 10 s = 2147483648 ∧
      some (shared_ptr.mk 10 1) ∈ s.vars ∧
      (shared_ptr.mk 10 1).toBool = true ∧
      (shared_ptr.mk 10 1).use_count s.heap = some (-2147483648) := by
  obtain ⟨s, e, ho, hm, hu⟩ := Prog.exec_copies heap42 10 (by decide) 2147483647 (by decide)
  exact ⟨s, e, ho, hm, by decide, hu⟩

/-- Witness for C1: one owner of the object at `10`, copied, the copy moved, the original
destroyed. -/
theorem use_count_counts_owners_witness :
    (10 : Nat) ≠ 0 ∧
    ∃ s, Prog.exec heap42 10 none (List.take 3 [Op.copy 0, Op.move 1, Op.destroy 0]) = some s ∧
      ∀ sp, some sp ∈ s.vars → sp.toBool = true →
        sp.ptr_ = 10 ∧
        sp.use_count s.heap = some (toInt (Prog.owners 10 s)) ∧
        (Prog.owners 10 s < 2147483648 →
          sp.use_count s.heap = some (Prog.owners 10 s : Int)) :=
  ⟨by decide, use_count_counts_owners heap42 10 (by decide) none
    [Op.copy 0, Op.move 1, Op.destroy 0] 3⟩

/-- Witness for C2, the example of the specification: `H1` over the `42` at address `10` with a
custom deleter, copied to `H2`; after `H1` is destroyed nothing has been logged, after `H2` is
destroyed the deleter has been called exactly once, on `10`. -/
theorem deleter_runs_once_at_last_release_witness :
    (10 : Nat) ≠ 0 ∧
    (Prog.exec heap42 10 (some (Deleter.custom 7)) [Op.copy 0, Op.destroy 0]).map
        (fun s => s.heap.log) = some [] ∧
    (Prog.exec heap42 10 (some (Deleter.custom 7)) [Op.copy 0, Op.destroy 0, Op.destroy 1]).map
        (fun s => s.heap.log)
      = some [Event.invokeDeleter (Deleter.custom 7) 10, Event.deleteBlock 1] := by
  refine ⟨by decide, ?_, ?_⟩
  · obtain ⟨s, e, hpos, _, _⟩ := deleter_runs_once_at_last_release heap42 10 (by decide)
      (some (Deleter.custom 7)) [Op.copy 0, Op.destroy 0, Op.destroy 1] 2
    have ho : (Prog.exec heap42 10 (some (Deleter.custom 7))
        (List.take 2 [Op.copy 0, Op.destroy 0, Op.destroy 1])).map (Prog.owners 10)
          = some 1 := by decide
    rw [e] at ho
    simp only [Option.map_some', Option.some.injEq] at ho
    have e2 : Prog.exec heap42 10 (some (Deleter.custom 7)) [Op.copy 0, Op.destroy 0]
        = some s := e
    rw [e2, Option.map_some', hpos (by omega)]
    rfl
  · obtain ⟨s, e, _, hzero, _⟩ := deleter_runs_once_at_last_release heap42 10 (by decide)
      (some (Deleter.custom 7)) [Op.copy 0, Op.destroy 0, Op.destroy 1] 3
    have ho : (Prog.exec heap42 10 (some (Deleter.custom 7))
        (List.take 3 [Op.copy 0, Op.destroy 0, Op.destroy 1])).map (Prog.owners 10)
          = some 0 := by decide
    rw [e] at ho
    simp only [Option.map_some', Option.some.injEq] at ho
    have e2 : Prog.exec heap42 10 (some (Deleter.custom 7))
        [Op.copy 0, Op.destroy 0, Op.destroy 1] = some s := e
    rw [e2, Option.map_some', hzero ho]
    rfl

/-! ## `release` and `reset` -/

/-- C14: for every owning handle and every free store, `release()` returns what `get()`
returned before, leaves the handle with a null object pointer (`get()` null, `bool` false) and
its control-block pointer as it was, and does not touch the free store (it has no access to
it: no counter changes, no deleter runs), so `use_count()` is the same after as before. -/
theorem release_keeps_control_block (sp : shared_ptr) (h : Heap T) :
    sp.release.1 = sp.get ∧
    sp.release.2.get = 0 ∧
    sp.release.2.toBool = false ∧
    sp.release.2.ptrToControlBlock_ = sp.ptrToControlBlock_ ∧
    sp.release.2.use_count h = sp.use_count h := by
  simp [shared_ptr.release, shared_ptr.get, shared_ptr.toBool, shared_ptr.use_count]

/-! ## Assigning an empty observer -/

/-- C13 (the code at the claim's input): after `shared_ptr<int> s(p10); weak_ptr<int> w(s);
weak_ptr<int> e;` the assignment `w = e` decrements `weakRefs_` from `1` to `0` and nulls the
object pointer of `w`, but its third branch writes `other.ptrToControlBlock_ = nullptr`
instead of the member of `*this`: `w` keeps the control-block pointer `1` and `w.use_count()`
is `1`, not `0`. -/
theorem weak_assign_empty_keeps_control_block :
    observed.map (fun s => (s.1, s.2.block 1))
      = some (weak_ptr.mk 10 1,
          some { sharedRefs_ := 1, weakRefs_ := 1, deleter_ := Deleter.defaultDelete }) ∧
    observed.bind (fun s => (s.1.assign weak_ptr.ctor s.2).map fun r =>
        (r.1, r.2.1, r.1.use_count r.2.2, r.2.2.block 1))
      = some (weak_ptr.mk 0 1, weak_ptr.mk 0 0, some 1,
          some { sharedRefs_ := 1, weakRefs_ := 0, deleter_ := Deleter.defaultDelete }) := by
  decide

/-! ## Two threads releasing the last two references -/

/-- A thread that runs `cleanUp()` alone on an allocated control block does what the
sequential `cleanUp` does. -/
theorem Thread.steps_alone (self : shared_ptr) (h : Heap T) (b : controlBlock)
    (hb : h.block self.ptrToControlBlock_ = some b) :
    Thread.steps { self := self, pc := Pc.entry } h 4
      = (self.cleanUp h).map fun r => ({ self := r.1, pc := Pc.done }, r.2) := by
  rw [shared_ptr.cleanUp_eq self h b hb]
  have h1 := Heap.block_store_self h self.ptrToControlBlock_ b
    (some { b with sharedRefs_ := (b.sharedRefs_ + (SIZE_MOD - 1)) % SIZE_MOD }) hb
  have e1 : h.decShared self.ptrToControlBlock_ = some (h.store self.ptrToControlBlock_
      (some { b with sharedRefs_ := (b.sharedRefs_ + (SIZE_MOD - 1)) % SIZE_MOD })) := by
    rw [Heap.decShared, Heap.modify_eq h _ _ b hb]
  generalize (b.sharedRefs_ + (SIZE_MOD - 1)) % SIZE_MOD = x at h1 e1 ⊢
  by_cases hz : x = 0
  · subst hz
    simp [Thread.steps, Thread.step, e1, h1]
  · simp [Thread.steps, Thread.step, e1, h1, hz]

/-- C16 (the code under the claim's schedule): two threads destroy the two handles that share
control block `1` with `sharedRefs_ == 2`.  Under the interleaving decrement, decrement, load,
load both loads observe `0`, because `cleanUp()` tests a separate load and not the value seen
by its own decrement; both threads then invoke the deleter on the object at `10`, and when
both go on to `delete ptrToControlBlock_` the second deletion is undefined behaviour.  When
the first thread finishes before the second starts, the deleter is invoked once. -/
theorem concurrent_cleanUp_invokes_deleter_twice :
    twoOwners.map (fun r => (r.t1, r.t2, r.heap.block 1, r.heap.log))
      = some ({ self := shared_ptr.mk 10 1, pc := Pc.entry },
          { self := shared_ptr.mk 10 1, pc := Pc.entry },
          some { sharedRefs_ := 2, weakRefs_ := 0, deleter_ := Deleter.defaultDelete }, []) ∧
    twoOwners.bind (fun r => (r.run [true, false, true, false]).map fun r1 =>
        (r1.t1.pc, r1.t2.pc))
      = some (Pc.sawZero, Pc.sawZero) ∧
    twoOwners.bind (fun r => (r.run [true, false, true, false, true, false]).map fun r1 =>
        (r1.heap.log, r1.heap.log.countP Event.isInvoke))
      = some ([Event.invokeDeleter Deleter.defaultDelete 10,
          Event.invokeDeleter Deleter.defaultDelete 10], 2) ∧
    twoOwners.map (fun r =>
        (r.run [true, false, true, false, true, false, true, false]).isSome)
      = some false ∧
    twoOwners.bind (fun r => (r.run [true, true, true, true, false, false, false, false]).map
        fun r1 => (r1.t1.pc, r1.t2.pc, r1.heap.log.countP Event.isInvoke))
      = some (Pc.done, Pc.done, 1) := by
  decide

/-! ## Counter updates in general -/

namespace Heap

/-- A read-modify-write of an allocated control block: the block is replaced, nothing else
changes. -/
theorem modify_spec (h : Heap T) (a : Nat) (f : controlBlock → controlBlock) (b : controlBlock)
    (hb : h.block a = some b) :
    ∃ h1, h.modify a f = some h1 ∧ h1.block a = some (f b) ∧
      (∀ c, c ≠ a → h1.block c = h.block c) ∧ h1.log = h.log ∧ h1.objects = h.objects :=
  ⟨_, modify_eq h a f b hb, block_store_self h a b _ hb,
    fun c hc => block_store_ne h a c _ hc, store_log _ _ _, store_objects _ _ _⟩

/-- A successful read-modify-write found an allocated control block. -/
theorem modify_some (h h1 : Heap T) (a : Nat) (f : controlBlock → controlBlock)
    (e : h.modify a f = some h1) :
    ∃ b, h.block a = some b ∧ h1.block a = some (f b) ∧
      (∀ c, c ≠ a → h1.block c = h.block c) ∧ h1.log = h.log ∧ h1.objects = h.objects := by
  cases hb : h.block a with
  | none => rw [modify_none h a f hb] at e; cases e
  | some b =>
    obtain ⟨h2, e2, r1, r2, r3, r4⟩ := modify_spec h a f b hb
    rw [e2] at e
    cases e
    exact ⟨b, rfl, r1, r2, r3, r4⟩

/-- An update of the weak count is invisible to owners. -/
theorem modify_ownersUntouched (h h1 : Heap T) (a : Nat) (f : controlBlock → controlBlock)
    (hf : ∀ b, (f b).sharedRefs_ = b.sharedRefs_ ∧ (f b).deleter_ = b.deleter_)
    (e : h.modify a f = some h1) : OwnersUntouched h h1 := by
  obtain ⟨b, hb, r1, r2, r3, r4⟩ := modify_some h h1 a f e
  refine ⟨r3, r4, fun c => ?_⟩
  by_cases hc : c = a
  · subst hc
    rw [r1, hb]
    simp [ownerView, hf b]
  · rw [r2 c hc]

end Heap

theorem OwnersUntouched.refl (h : Heap T) : OwnersUntouched h h :=
  ⟨rfl, rfl, fun _ => rfl⟩

theorem OwnersUntouched.trans (h h1 h2 : Heap T) (a : OwnersUntouched h h1)
    (b : OwnersUntouched h1 h2) : OwnersUntouched h h2 :=
  ⟨b.1.trans a.1, b.2.1.trans a.2.1, fun c => (b.2.2 c).trans (a.2.2 c)⟩

theorem OwnersUntouched.use_count (h h1 : Heap T) (a : OwnersUntouched h h1) (sp : shared_ptr) :
    sp.use_count h1 = sp.use_count h := by
  have e := a.2.2 sp.ptrToControlBlock_
  unfold shared_ptr.use_count
  split
  · rfl
  · cases h1b : h1.block sp.ptrToControlBlock_ <;> cases hb : h.block sp.ptrToControlBlock_ <;>
      simp_all [ownerView]

/-! ## Observing handles -/

/-- C12, amended: constructing an observing handle from a non-empty owning handle `s`, or copying
a non-empty observing handle `w`, whose control block is allocated (with a weak count below the
largest `std::size_t`), yields a handle with the same object pointer and control-block pointer,
raises `weakRefs_` of that block by one and changes nothing else (strong count, deleter, other
blocks, log), so the `use_count()` of the new handle is that of the source; constructing from an
empty source, or default construction, yields the handle with two null pointers, whose
`use_count()` is `0`, and leaves the free store unchanged. -/
theorem weak_construction_counts_observer (s : shared_ptr) (w : weak_ptr) (h : Heap T) :
    (∀ b, s.ptr_ ≠ 0 → h.block s.ptrToControlBlock_ = some b → b.weakRefs_ + 1 < SIZE_MOD →
      ∃ h1, weak_ptr.fromShared s h
          = some ({ ptr_ := s.ptr_, ptrToControlBlock_ := s.ptrToControlBlock_ }, h1) ∧
        h1.block s.ptrToControlBlock_ = some { b with weakRefs_ := b.weakRefs_ + 1 } ∧
        (∀ c, c ≠ s.ptrToControlBlock_ → h1.block c = h.block c) ∧
        h1.log = h.log ∧
        (weak_ptr.mk s.ptr_ s.ptrToControlBlock_).use_count h1 = s.use_count h) ∧
    (∀ b, w.ptr_ ≠ 0 → h.block w.ptrToControlBlock_ = some b → b.weakRefs_ + 1 < SIZE_MOD →
      ∃ h1, w.copy h
          = some ({ ptr_ := w.ptr_, ptrToControlBlock_ := w.ptrToControlBlock_ }, h1) ∧
        h1.block w.ptrToControlBlock_ = some { b with weakRefs_ := b.weakRefs_ + 1 } ∧
        (∀ c, c ≠ w.ptrToControlBlock_ → h1.block c = h.block c) ∧
        h1.log = h.log ∧
        (weak_ptr.mk w.ptr_ w.ptrToControlBlock_).use_count h1 = w.use_count h) ∧
    (s.ptr_ = 0 → weak_ptr.fromShared s h = some ({ ptr_ := 0, ptrToControlBlock_ := 0 }, h)) ∧
    (w.ptr_ = 0 → w.copy h = some ({ ptr_ := 0, ptrToControlBlock_ := 0 }, h)) ∧
    weak_ptr.ctor = { ptr_ := 0, ptrToControlBlock_ := 0 } ∧
    (weak_ptr.mk 0 0).use_count h = some 0 := by
  have key : ∀ (a : Nat) (b : controlBlock), h.block a = some b → b.weakRefs_ + 1 < SIZE_MOD →
      ∃ h1, h.incWeak a = some h1 ∧
        h1.block a = some { b with weakRefs_ := b.weakRefs_ + 1 } ∧
        (∀ c, c ≠ a → h1.block c = h.block c) ∧ h1.log = h.log := by
    intro a b hb hlt
    obtain ⟨h1, e, r1, r2, r3, _⟩ := Heap.modify_spec h a
      (fun b => { b with weakRefs_ := (b.weakRefs_ + 1) % SIZE_MOD }) b hb
    refine ⟨h1, e, ?_, r2, r3⟩
    rw [r1, Nat.mod_eq_of_lt hlt]
  refine ⟨fun b hp hb hlt => ?_, fun b hp hb hlt => ?_, fun hp => ?_, fun hp => ?_, rfl, ?_⟩
  · obtain ⟨h1, e, r1, r2, r3⟩ := key _ b hb hlt
    have hcb : s.ptrToControlBlock_ ≠ 0 := by
      intro e0
      rw [e0, Heap.block_zero] at hb
      cases hb
    refine ⟨h1, by simp [weak_ptr.fromShared, hp, e], r1, r2, r3, ?_⟩
    simp [weak_ptr.use_count, shared_ptr.use_count, hcb, r1, hb]
  · obtain ⟨h1, e, r1, r2, r3⟩ := key _ b hb hlt
    have hcb : w.ptrToControlBlock_ ≠ 0 := by
      intro e0
      rw [e0, Heap.block_zero] at hb
      cases hb
    refine ⟨h1, by simp [weak_ptr.copy, hp, e], r1, r2, r3, ?_⟩
    simp [weak_ptr.use_count, hcb, r1, hb]
  · simp [weak_ptr.fromShared, hp]
  · simp [weak_ptr.copy, hp]
  · simp [weak_ptr.use_count]

/-- Witness for C12: an observer constructed from the only owner of the object at `10`. -/
theorem weak_construction_counts_observer_witness :
    ∃ h1, weak_ptr.fromShared (shared_ptr.mk 10 1) heapOwned = some (weak_ptr.mk 10 1, h1) ∧
      h1.block 1 = some { sharedRefs_ := 1, weakRefs_ := 1, deleter_ := Deleter.defaultDelete } ∧
      (weak_ptr.mk 10 1).use_count h1 = some 1 :=
  ((weak_construction_counts_observer (shared_ptr.mk 10 1) (weak_ptr.mk 10 1) heapOwned).1
      { sharedRefs_ := 1, weakRefs_ := 0, deleter_ := Deleter.defaultDelete }
      (by decide) (by decide) (by decide)).elim fun h1 hc =>
    ⟨h1, hc.1, hc.2.1, by rw [hc.2.2.2.2]; decide⟩

/-- C19: the observing-handle operations other than `lock()` that reach the free store
(converting construction, copy construction, copy assignment) leave, whenever they are
defined, the log and the objects unchanged (no deleter invoked, nothing deallocated) and every
control block allocated as before with the same strong count and deleter; consequently
`use_count()` of every owning handle is unchanged.  Default construction, move construction
and `use_count()` have no access to the free store, and no operation has write access to an
owning handle. -/
theorem observer_operations_leave_owners_alone :
    (∀ (s : shared_ptr) (h : Heap T) r, weak_ptr.fromShared s h = some r →
      OwnersUntouched h r.2) ∧
    (∀ (w : weak_ptr) (h : Heap T) r, w.copy h = some r → OwnersUntouched h r.2) ∧
    (∀ (w o : weak_ptr) (h : Heap T) r, w.assign o h = some r → OwnersUntouched h r.2.2) ∧
    (∀ (h h1 : Heap T), OwnersUntouched h h1 →
      ∀ sp : shared_ptr, sp.use_count h1 = sp.use_count h) := by
  have hinc : ∀ (h h1 : Heap T) a, h.incWeak a = some h1 → OwnersUntouched h h1 :=
    fun h h1 a e => Heap.modify_ownersUntouched h h1 a
      (fun b => { b with weakRefs_ := (b.weakRefs_ + 1) % SIZE_MOD }) (fun _ => ⟨rfl, rfl⟩) e
  have hdec : ∀ (h h1 : Heap T) a, h.decWeak a = some h1 → OwnersUntouched h h1 :=
    fun h h1 a e => Heap.modify_ownersUntouched h h1 a
      (fun b => { b with weakRefs_ := (b.weakRefs_ + (SIZE_MOD - 1)) % SIZE_MOD })
      (fun _ => ⟨rfl, rfl⟩) e
  refine ⟨fun s h r e => ?_, fun w h r e => ?_, fun w o h r e => ?_,
    fun h h1 a sp => OwnersUntouched.use_count h h1 a sp⟩
  · unfold weak_ptr.fromShared at e
    split at e
    · simp only [Option.map_eq_some'] at e
      obtain ⟨h1, e1, rfl⟩ := e
      exact hinc _ _ _ e1
    · cases e
      exact OwnersUntouched.refl h
  · unfold weak_ptr.copy at e
    split at e
    · simp only [Option.map_eq_some'] at e
      obtain ⟨h1, e1, rfl⟩ := e
      exact hinc _ _ _ e1
    · cases e
      exact OwnersUntouched.refl h
  · unfold weak_ptr.assign at e
    split at e
    · cases e
      exact OwnersUntouched.refl h
    · split at e
      · simp only [Option.map_eq_some'] at e
        obtain ⟨h1, e1, rfl⟩ := e
        exact hinc _ _ _ e1
      · split at e
        · simp only [Option.map_eq_some'] at e
          obtain ⟨h1, e1, rfl⟩ := e
          exact hdec _ _ _ e1
        · split at e
          · cases hd : h.decWeak w.ptrToControlBlock_ with
            | none => simp [hd] at e
            | some h1 =>
              simp only [hd, Option.map_eq_some'] at e
              obtain ⟨h2, e2, rfl⟩ := e
              exact OwnersUntouched.trans _ _ _ (hdec _ _ _ hd) (hinc _ _ _ e2)
          · cases e
            exact OwnersUntouched.refl h

/-- Witness for C19: constructing an observer from the only owner of the object at `10` and
then assigning an empty observer to it leaves `use_count()` of the owner at `1`. -/
theorem observer_operations_leave_owners_alone_witness :
    observed.bind (fun s => (s.1.assign weak_ptr.ctor s.2).map fun r =>
        ((shared_ptr.mk 10 1).use_count r.2.2, r.2.2.log))
      = some (some 1, []) ∧
    ∀ r, observed = some r → OwnersUntouched heapOwned r.2 :=
  ⟨by decide, fun r e => observer_operations_leave_owners_alone.1 _ _ r e⟩

/-! ## Destruction, reassignment and the weak count -/

namespace Heap

theorem invokeDeleter_objects_null (h : Heap T) (d : Deleter) :
    (h.invokeDeleter d 0).objects = h.objects := by
  cases d <;> simp [invokeDeleter, deleteObject]

/-- An increment of a strong count changes neither the log nor which blocks are allocated. -/
theorem incShared_keeps (h h1 : Heap T) (a : Nat) (e : h.incShared a = some h1) :
    h1.log = h.log ∧ ∀ c, (h1.block c).isSome = (h.block c).isSome := by
  obtain ⟨b, hb, r1, r2, r3, _⟩ := modify_some h h1 a _ e
  refine ⟨r3, fun c => ?_⟩
  by_cases hc : c = a
  · subst hc
    rw [r1, hb]
    rfl
  · rw [r2 c hc]

end Heap

/-- C18: let the control block of the handle `a` be allocated with strong count `n ≥ 1`, any
weak count `w` and deleter `d`.  Destroying `a` succeeds.  If `n = 1` it appends to the log
first the invocation of `d` on the object pointer of `a`, then the deallocation of the control
block, and the block is no longer allocated, whatever `w` is.  If `n > 1` the strong count
becomes `n - 1`, the block stays allocated and the log is unchanged.  Reassigning a non-empty
`a` from a handle `o` on another object has the same effect: move assignment and copy
assignment from an empty `o` end in the same free store as the destructor, copy assignment
from a non-empty `o` is that release followed by `sharedRefs_++` on the block of `o`, which
logs nothing and deallocates nothing. -/
theorem release_protocol_ignores_weak_count (a : shared_ptr) (h : Heap T) (n w : Nat)
    (d : Deleter)
    (hb : h.block a.ptrToControlBlock_ = some { sharedRefs_ := n, weakRefs_ := w, deleter_ := d })
    (hlo : 1 ≤ n) (hhi : n < SIZE_MOD) :
    ∃ h1, a.dtor h = some h1 ∧
      (n = 1 →
        h1.block a.ptrToControlBlock_ = none ∧
        h1.log = h.log ++ [Event.invokeDeleter d a.ptr_,
          Event.deleteBlock a.ptrToControlBlock_]) ∧
      (n ≠ 1 →
        h1.block a.ptrToControlBlock_
          = some { sharedRefs_ := n - 1, weakRefs_ := w, deleter_ := d } ∧
        h1.log = h.log) ∧
      (∀ o : shared_ptr, a.ptr_ ≠ 0 → o.ptr_ ≠ a.ptr_ →
        (a.moveAssign o h).map (fun r => r.2.2) = some h1) ∧
      (∀ o : shared_ptr, a.ptr_ ≠ 0 → o.ptr_ = 0 →
        (a.assign o h).map (fun r => r.2) = some h1) ∧
      (∀ o : shared_ptr, a.ptr_ ≠ 0 → o.ptr_ ≠ 0 → o.ptr_ ≠ a.ptr_ →
        ∀ r, a.assign o h = some r →
          h1.incShared o.ptrToControlBlock_ = some r.2 ∧ r.2.log = h1.log ∧
          ∀ c, (r.2.block c).isSome = (h1.block c).isSome) := by
  have hcb : a.ptrToControlBlock_ ≠ 0 := by
    intro e0
    rw [e0, Heap.block_zero] at hb
    cases hb
  obtain ⟨r0, e0, hfree, hkeep⟩ : ∃ r0, a.cleanUp h = some r0 ∧
      (n = 1 → r0.2.block a.ptrToControlBlock_ = none ∧
        r0.2.log = h.log ++ [Event.invokeDeleter d a.ptr_,
          Event.deleteBlock a.ptrToControlBlock_]) ∧
      (n ≠ 1 → r0.2.block a.ptrToControlBlock_
          = some { sharedRefs_ := n - 1, weakRefs_ := w, deleter_ := d } ∧
        r0.2.log = h.log) := by
    by_cases hone : n = 1
    · obtain ⟨h1, e, r1, _, r3⟩ := shared_ptr.cleanUp_last a h _ hb hone
      exact ⟨_, e, fun _ => ⟨r1, r3⟩, fun hne => absurd hone hne⟩
    · obtain ⟨h1, e, r1, _, r3, _⟩ := shared_ptr.cleanUp_shared a h _ hb (by simp only; omega) hhi
      exact ⟨_, e, fun h1 => absurd h1 hone, fun _ => ⟨r1, r3⟩⟩
  refine ⟨r0.2, by simp [shared_ptr.dtor, hcb, e0], hfree, hkeep, fun o hp ho => ?_,
    fun o hp ho => ?_, fun o hp ho hne r er => ?_⟩
  · have c1 : ¬ (a.ptr_ = o.ptr_ ∨ (a.ptr_ = 0 ∧ o.ptr_ = 0)) := by
      rintro (e1 | ⟨e1, _⟩)
      · exact ho e1.symm
      · exact hp e1
    have c2 : ¬ (a.ptr_ = 0 ∧ o.ptr_ ≠ 0) := fun c => hp c.1
    by_cases hq : o.ptr_ = 0
    · simp only [shared_ptr.moveAssign, if_neg c1, if_neg c2, if_pos (And.intro hp hq), e0,
        Option.map_some']
    · have c3 : ¬ (a.ptr_ ≠ 0 ∧ o.ptr_ = 0) := fun c => hq c.2
      simp only [shared_ptr.moveAssign, if_neg c1, if_neg c2, if_neg c3,
        if_pos (And.intro hp hq), e0, Option.map_some']
  · have c1 : ¬ (a.ptr_ = o.ptr_ ∨ (a.ptr_ = 0 ∧ o.ptr_ = 0)) := by
      rintro (e1 | ⟨e1, _⟩)
      · exact hp (by rw [e1]; exact ho)
      · exact hp e1
    have c2 : ¬ (a.ptr_ = 0 ∧ o.ptr_ ≠ 0) := fun c => hp c.1
    simp only [shared_ptr.assign, if_neg c1, if_neg c2, if_pos (And.intro hp ho), e0,
      Option.map_some']
  · have c1 : ¬ (a.ptr_ = o.ptr_ ∨ (a.ptr_ = 0 ∧ o.ptr_ = 0)) := by
      rintro (e1 | ⟨e1, _⟩)
      · exact hne e1.symm
      · exact hp e1
    have c2 : ¬ (a.ptr_ = 0 ∧ o.ptr_ ≠ 0) := fun c => hp c.1
    have c3 : ¬ (a.ptr_ ≠ 0 ∧ o.ptr_ = 0) := fun c => ho c.2
    simp only [shared_ptr.assign, if_neg c1, if_neg c2, if_neg c3, if_pos (And.intro hp ho), e0,
      Option.map_eq_some'] at er
    obtain ⟨h2, e2, rfl⟩ := er
    exact ⟨e2, Heap.incShared_keeps _ _ _ e2⟩

/-- Witness for C18: the only owner of the object at `10` is destroyed while an observer exists
(`weakRefs_ == 1`): the deleter runs on `10`, then control block `1` is deallocated, and the
observer is left with a pointer to it. -/
theorem release_protocol_ignores_weak_count_witness :
    observed.map (fun s => (s.1, s.2.block 1))
      = some (weak_ptr.mk 10 1,
          some { sharedRefs_ := 1, weakRefs_ := 1, deleter_ := Deleter.defaultDelete }) ∧
    ∀ s, observed = some s →
      ∃ h1, (shared_ptr.mk 10 1).dtor s.2 = some h1 ∧ h1.block 1 = none ∧
        h1.log = s.2.log ++ [Event.invokeDeleter Deleter.defaultDelete 10,
          Event.deleteBlock 1] := by
  refine ⟨by decide, fun s e => ?_⟩
  have hb : s.2.block (shared_ptr.mk 10 1).ptrToControlBlock_
      = some { sharedRefs_ := 1, weakRefs_ := 1, deleter_ := Deleter.defaultDelete } := by
    have e1 : observed.map (fun s => s.2.block 1)
        = some (some { sharedRefs_ := 1, weakRefs_ := 1, deleter_ := Deleter.defaultDelete }) := by
      decide
    rw [e] at e1
    simpa using e1
  obtain ⟨h1, e1, hone, _⟩ := release_protocol_ignores_weak_count (shared_ptr.mk 10 1) s.2 1 1
    Deleter.defaultDelete hb (by decide) (by decide)
  exact ⟨h1, e1, (hone rfl).1, (hone rfl).2⟩

/-- C20: let `h` be a non-empty handle whose control block is allocated with strong count
`n ≥ 1` and deleter `d`, and let `p = h.release()`.  Destroying the handle afterwards succeeds
and runs the release protocol on the control block.  If `n = 1` the log grows by the
invocation of `d` on the null pointer followed by the deallocation of the block; if `n > 1`
the strong count becomes `n - 1` and the log is unchanged.  In both cases no deleter is invoked
on `p` and the objects of the free store are unchanged: the object at `p` is not destroyed. -/
theorem destroy_after_release (sp : shared_ptr) (h : Heap T) (b : controlBlock)
    (hp : sp.ptr_ ≠ 0) (hb : h.block sp.ptrToControlBlock_ = some b)
    (hlo : 1 ≤ b.sharedRefs_) (hhi : b.sharedRefs_ < SIZE_MOD) :
    sp.release.1 = sp.ptr_ ∧
    ∃ h1, sp.release.2.dtor h = some h1 ∧
      h1.objects = h.objects ∧
      (∀ c, c ≠ sp.ptrToControlBlock_ → h1.block c = h.block c) ∧
      (b.sharedRefs_ = 1 →
        h1.block sp.ptrToControlBlock_ = none ∧
        h1.log = h.log ++ [Event.invokeDeleter b.deleter_ 0,
          Event.deleteBlock sp.ptrToControlBlock_]) ∧
      (b.sharedRefs_ ≠ 1 →
        h1.block sp.ptrToControlBlock_ = some { b with sharedRefs_ := b.sharedRefs_ - 1 } ∧
        h1.log = h.log) ∧
      (∀ d, Event.invokeDeleter d sp.ptr_ ∈ h1.log → Event.invokeDeleter d sp.ptr_ ∈ h.log) := by
  refine ⟨rfl, ?_⟩
  have hcb : sp.ptrToControlBlock_ ≠ 0 := by
    intro e0
    rw [e0, Heap.block_zero] at hb
    cases hb
  have hb1 : h.block sp.release.2.ptrToControlBlock_ = some b := hb
  have hdt : sp.release.2.dtor h = (sp.release.2.cleanUp h).map fun r => r.2 := by
    simp [shared_ptr.dtor, shared_ptr.release, hcb]
  by_cases hone : b.sharedRefs_ = 1
  · have hz : (b.sharedRefs_ + (SIZE_MOD - 1)) % SIZE_MOD = 0 := by
      rw [hone]; decide
    obtain ⟨h1, e, r1, r2, r3⟩ := shared_ptr.cleanUp_last sp.release.2 h b hb1 hone
    have hobj : h1.objects = h.objects := by
      have e2 := shared_ptr.cleanUp_eq sp.release.2 h b hb1
      rw [if_pos hz, e] at e2
      simp only [Option.some.injEq, Prod.mk.injEq, true_and] at e2
      rw [e2]
      simp only [Heap.deleteBlock_objects, shared_ptr.release]
      rw [Heap.invokeDeleter_objects_null, Heap.store_objects]
    refine ⟨h1, by rw [hdt, e]; rfl, hobj, r2, fun _ => ⟨r1, r3⟩, fun hne => absurd hone hne,
      fun d hm => ?_⟩
    rw [r3] at hm
    simp only [shared_ptr.release, List.mem_append, List.mem_cons, Event.invokeDeleter.injEq,
      List.mem_singleton, reduceCtorEq, or_false, List.not_mem_nil] at hm
    rcases hm with hm | ⟨_, hm⟩
    · exact hm
    · exact absurd hm hp
  · obtain ⟨h1, e, r1, r2, r3, r4⟩ :=
      shared_ptr.cleanUp_shared sp.release.2 h b hb1 (by omega) hhi
    exact ⟨h1, by rw [hdt, e]; rfl, r4, r2, fun h0 => absurd h0 hone, fun _ => ⟨r1, r3⟩,
      fun d hm => by rw [r3] at hm; exact hm⟩

/-- Witness for C20: the only owner of the `42` at address `10` is `release()`d and then
destroyed: the deleter is called with the null pointer, the control block is freed and the
object at `10` is still there. -/
theorem destroy_after_release_witness :
    (shared_ptr.mk 10 1).release.1 = 10 ∧
    ∃ h1, (shared_ptr.mk 10 1).release.2.dtor heapOwned = some h1 ∧
      h1.objects 10 = some 42 ∧
      h1.log = [Event.invokeDeleter Deleter.defaultDelete 0, Event.deleteBlock 1] :=
  ⟨rfl, (destroy_after_release (shared_ptr.mk 10 1) heapOwned
      { sharedRefs_ := 1, weakRefs_ := 0, deleter_ := Deleter.defaultDelete }
      (by decide) (by decide) (by decide) (by decide)).2.elim fun h1 hc =>
    ⟨h1, hc.1, by rw [hc.2.1]; rfl, (hc.2.2.2.1 rfl).2⟩⟩

/-! ## Well-formedness of owning handles -/

theorem shared_ptr.wellFormed_iff (p c : Nat) :
    (shared_ptr.mk p c).wellFormed = true ↔ (p = 0 ↔ c = 0) := by
  simp [shared_ptr.wellFormed]

/-- A successful `sharedRefs_++` went through a non-null pointer. -/
theorem Heap.incShared_ne_zero (h h1 : Heap T) (a : Nat) (e : h.incShared a = some h1) :
    a ≠ 0 := by
  obtain ⟨b, hb, _⟩ := Heap.modify_some h h1 a _ e
  intro e0
  rw [e0, Heap.block_zero] at hb
  cases hb

/-- C17: every owning handle produced or modified by construction from a raw pointer (with or
without deleter), copy construction, move construction, copy assignment, move assignment or
`weak_ptr::lock()` has its object pointer and its control-block pointer both null or both
non-null, provided the owning handles the operation starts from have. -/
theorem handles_stay_well_formed :
    (∀ (p : Nat) (h : Heap T), (shared_ptr.ctor p h).1.wellFormed = true) ∧
    (∀ (p : Nat) (d : Deleter) (h : Heap T) r,
      shared_ptr.ctorDeleter p d h = some r → r.1.wellFormed = true) ∧
    (∀ (o : shared_ptr) (h : Heap T) r,
      o.wellFormed = true → o.copy h = some r → r.1.wellFormed = true) ∧
    (∀ o : shared_ptr,
      o.wellFormed = true → o.move.1.wellFormed = true ∧ o.move.2.wellFormed = true) ∧
    (∀ (a o : shared_ptr) (h : Heap T) r,
      a.wellFormed = true → o.wellFormed = true → a.assign o h = some r →
        r.1.wellFormed = true) ∧
    (∀ (a o : shared_ptr) (h : Heap T) r,
      a.wellFormed = true → o.wellFormed = true → a.moveAssign o h = some r →
        r.1.wellFormed = true ∧ r.2.1.wellFormed = true) ∧
    (∀ (w : weak_ptr) (h : Heap T) r, w.lock h = some r → r.1.wellFormed = true) := by
  have hnull : (shared_ptr.mk 0 0).wellFormed = true := rfl
  have hctor : ∀ (p : Nat) (h : Heap T), (shared_ptr.ctor p h).1.wellFormed = true := by
    intro p h
    by_cases hp : p = 0
    · subst hp
      rfl
    · simp [shared_ptr.ctor, hp, shared_ptr.wellFormed, Heap.newControlBlock]
  refine ⟨hctor, ?_, ?_, ?_, ?_, ?_, ?_⟩
  · intro p d h r e
    simp only [shared_ptr.ctorDeleter, Option.map_eq_some'] at e
    obtain ⟨h1, _, rfl⟩ := e
    exact hctor p h
  · intro o h r ho e
    have hr : r.1 = o := by
      unfold shared_ptr.copy at e
      by_cases hq : o.ptr_ = 0
      · simp only [hq, ne_eq, not_true_eq_false, if_false, Option.some.injEq] at e
        rw [← e]
        cases o
        simp_all
      · simp only [ne_eq, hq, not_false_eq_true, if_true, Option.map_eq_some'] at e
        obtain ⟨_, _, rfl⟩ := e
        rfl
    rw [hr]
    exact ho
  · intro o ho
    by_cases hq : o.ptr_ = 0
    · simp only [shared_ptr.move, hq, ne_eq, not_true_eq_false, if_false]
      exact ⟨hnull, ho⟩
    · simp only [shared_ptr.move, ne_eq, hq, not_false_eq_true, if_true]
      exact ⟨ho, hnull⟩
  · intro a o h r ha ho e
    have hoo : (shared_ptr.mk o.ptr_ o.ptrToControlBlock_).wellFormed = true := ho
    unfold shared_ptr.assign at e
    split at e
    · cases e
      exact ha
    · split at e
      · simp only [Option.map_eq_some'] at e
        obtain ⟨_, _, rfl⟩ := e
        exact hoo
      · split at e
        · simp only [Option.map_eq_some'] at e
          obtain ⟨_, _, rfl⟩ := e
          exact hnull
        · split at e
          · cases hc : a.cleanUp h with
            | none => simp [hc] at e
            | some r0 =>
              simp only [hc, Option.map_eq_some'] at e
              obtain ⟨_, _, rfl⟩ := e
              exact hoo
          · cases e
            exact ha
  · intro a o h r ha ho e
    have hoo : (shared_ptr.mk o.ptr_ o.ptrToControlBlock_).wellFormed = true := ho
    unfold shared_ptr.moveAssign at e
    split at e
    · cases e
      exact ⟨ha, ho⟩
    · split at e
      · cases e
        exact ⟨hoo, hnull⟩
      · split at e
        · simp only [Option.map_eq_some'] at e
          obtain ⟨_, _, rfl⟩ := e
          exact ⟨hnull, ho⟩
        · split at e
          · simp only [Option.map_eq_some'] at e
            obtain ⟨_, _, rfl⟩ := e
            exact ⟨hoo, hnull⟩
          · cases e
            exact ⟨ha, ho⟩
  · intro w h r e
    unfold weak_ptr.lock at e
    split at e
    · rename_i hp
      simp only [Option.map_eq_some'] at e
      obtain ⟨h1, e1, rfl⟩ := e
      have hcb := Heap.incShared_ne_zero h h1 _ e1
      exact (shared_ptr.wellFormed_iff _ _).mpr ⟨fun e0 => absurd e0 hp, fun e0 => absurd e0 hcb⟩
    · cases e
      exact hctor 0 h

/-- Witness for C17: copy assignment of the owner of the object at `20` to the owner of the
object at `10`, and `lock()` on an observer of the object at `10`, both succeed and produce
well-formed handles. -/
theorem handles_stay_well_formed_witness :
    (∃ r, (shared_ptr.mk 10 1).assign (shared_ptr.mk 20 2) heapTwo = some r ∧
      r.1.wellFormed = true) ∧
    (∃ r, (weak_ptr.mk 10 1).lock heapOwned = some r ∧ r.1.wellFormed = true) := by
  constructor
  · cases e : (shared_ptr.mk 10 1).assign (shared_ptr.mk 20 2) heapTwo with
    | none =>
      have : ((shared_ptr.mk 10 1).assign (shared_ptr.mk 20 2) heapTwo).isSome = true := by
        decide
      rw [e] at this
      cases this
    | some r =>
      exact ⟨r, rfl, handles_stay_well_formed.2.2.2.2.1 _ _ _ r (by decide) (by decide) e⟩
  · cases e : (weak_ptr.mk 10 1).lock heapOwned with
    | none =>
      have : ((weak_ptr.mk 10 1).lock heapOwned).isSome = true := by decide
      rw [e] at this
      cases this
    | some r => exact ⟨r, rfl, handles_stay_well_formed.2.2.2.2.2.2 _ _ r e⟩

/-! ## Upgrading an observer of a live object -/

/-- The control block after `shared_ptr<T> v0(p);` followed by `n` copies of `v0`. -/
theorem Prog.exec_copies_block (h0 : Heap T) (p : Nat) (hp : p ≠ 0) (n : Nat)
    (hn : 1 + n ≤ MAX_HANDLES) :
    ∃ s, Prog.exec h0 p none (List.replicate n (Op.copy 0)) = some s ∧
      s.heap.block (h0.blocks.length + 1)
        = some { sharedRefs_ := 1 + n, weakRefs_ := 0, deleter_ := Deleter.defaultDelete } := by
  obtain ⟨s0, e0, hI0, hv0⟩ := Prog.start_inv h0 p hp none
  have hh0 : s0.handle 0 = some { ptr_ := p, ptrToControlBlock_ := h0.blocks.length + 1 } := by
    simp [Prog.handle, hv0]
  have hl0 : s0.liveHandles = 1 := by simp [Prog.liveHandles, hv0]
  have ho0 : Prog.owners p s0 = 1 := by simp [Prog.owners, hv0, Prog.refers_owner]
  obtain ⟨s1, e1, hI1, ho1, _⟩ := Prog.run_copies p _ _ _ hp n s0 hI0 hh0 (by omega)
  refine ⟨s1, by simp only [Prog.exec, e0, Option.some_bind, e1], ?_⟩
  have hb := (hI1.2.2.1 (by omega)).1
  rw [ho1, ho0] at hb
  exact hb

/-- C11 fails as stated: after `shared_ptr<int> v0(p10);` and `2^31 - 2` copies of `v0` the
strong count is `2^31 - 1`.  An observer `w` constructed from `v0` references a live object;
`w.lock()` raises the strong count to `2^31`, and `use_count()` of the handle it returns,
which is `static_cast<int>(sharedRefs_)`, is `-2^31`, not the previous strong count plus
one. -/
theorem lock_use_count_wraps_at_two_pow_31 :
    ∃ s w h1 r h2,
      Prog.exec heap42 10 none (List.replicate 2147483646 (Op.copy 0)) = some s ∧
      weak_ptr.fromShared (shared_ptr.mk 10 1) s.heap = some (w, h1) ∧
      w = weak_ptr.mk 10 1 ∧
      h1.block 1 = some (controlBlock.mk 2147483647 1 Deleter.defaultDelete) ∧
      w.lock h1 = some (r, h2) ∧
      h2.block 1 = some (controlBlock.mk 2147483648 1 Deleter.defaultDelete) ∧
      r.use_count h2 = some (-2147483648) := by
  obtain ⟨s, e, hb⟩ := Prog.exec_copies_block heap42 10 (by decide) 2147483646 (by decide)
  have hb0 : s.heap.block 1 = some (controlBlock.mk 2147483647 0 Deleter.defaultDelete) := hb
  obtain ⟨h1, e1, r1, _, _, _⟩ := Heap.modify_spec s.heap 1
    (fun b => { b with weakRefs_ := (b.weakRefs_ + 1) % SIZE_MOD }) _ hb0
  have r1' : h1.block 1 = some (controlBlock.mk 2147483647 1 Deleter.defaultDelete) := by
    rw [r1]; rfl
  obtain ⟨h2, e2, r2, _, _, _⟩ := Heap.modify_spec h1 1
    (fun b => { b with sharedRefs_ := (b.sharedRefs_ + 1) % SIZE_MOD }) _ r1'
  have r2' : h2.block 1 = some (controlBlock.mk 2147483648 1 Deleter.defaultDelete) := by
    rw [r2]; rfl
  refine ⟨s, weak_ptr.mk 10 1, h1, shared_ptr.mk 10 1, h2, e, ?_, rfl, r1', ?_, r2', ?_⟩
  · have e1' : s.heap.incWeak 1 = some h1 := e1
    simp only [weak_ptr.fromShared, ne_eq, OfNat.ofNat_ne_zero, not_false_eq_true, if_true, e1',
      Option.map_some']
  · have e2' : h1.incShared 1 = some h2 := e2
    simp only [weak_ptr.lock, ne_eq, OfNat.ofNat_ne_zero, not_false_eq_true, if_true, e2',
      Option.map_some']
  · simp only [shared_ptr.use_count, OfNat.ofNat_ne_zero, if_false, r2', Option.map_some']
    rfl

/-- C11, amended: for an observing handle `w` with a non-null object pointer whose control
block is allocated (with a strong count below the largest `std::size_t`), `w.lock()` raises the
strong count of that block by exactly one, leaves the weak count, the deleter, every other
block and the log unchanged, and returns the owning handle with the pointers of `w`; its
`use_count()` is the previous strong count plus one converted to `int`, which is that number
whenever it is below `2^31`.  For an observing handle with a null object pointer `lock()`
returns the owning handle with two null pointers and leaves the free store unchanged. -/
theorem lock_shares_ownership (w : weak_ptr) (h : Heap T) :
    (∀ b, w.ptr_ ≠ 0 → h.block w.ptrToControlBlock_ = some b →
      b.sharedRefs_ + 1 < SIZE_MOD →
      ∃ h1, w.lock h
          = some ({ ptr_ := w.ptr_, ptrToControlBlock_ := w.ptrToControlBlock_ }, h1) ∧
        h1.block w.ptrToControlBlock_ = some { b with sharedRefs_ := b.sharedRefs_ + 1 } ∧
        (∀ c, c ≠ w.ptrToControlBlock_ → h1.block c = h.block c) ∧
        h1.log = h.log ∧ h1.objects = h.objects ∧
        (shared_ptr.mk w.ptr_ w.ptrToControlBlock_).use_count h1
          = some (toInt (b.sharedRefs_ + 1)) ∧
        (b.sharedRefs_ + 1 < 2147483648 →
          (shared_ptr.mk w.ptr_ w.ptrToControlBlock_).use_count h1
            = some ((b.sharedRefs_ + 1 : Nat) : Int))) ∧
    (w.ptr_ = 0 → w.lock h = some ({ ptr_ := 0, ptrToControlBlock_ := 0 }, h)) := by
  constructor
  · intro b hp hb hlt
    obtain ⟨h1, e, r1, r2, r3, r4⟩ := shared_ptr.incShared_eq h _ b hb
    have hcb : w.ptrToControlBlock_ ≠ 0 := by
      intro e0
      rw [e0, Heap.block_zero] at hb
      cases hb
    rw [Nat.mod_eq_of_lt hlt] at r1
    have hu : (shared_ptr.mk w.ptr_ w.ptrToControlBlock_).use_count h1
        = some (toInt (b.sharedRefs_ + 1)) := by
      simp [shared_ptr.use_count, hcb, r1]
    refine ⟨h1, by simp [weak_ptr.lock, hp, e], r1, r2, r3, r4, hu, fun hs => ?_⟩
    rw [hu, toInt_of_lt _ hs]
  · intro hp
    simp [weak_ptr.lock, hp, shared_ptr.ctor]

/-- Witness for C11: `lock()` on an observer of the object at `10`, which has one owner. -/
theorem lock_shares_ownership_witness :
    ∃ h1, (weak_ptr.mk 10 1).lock heapOwned = some (shared_ptr.mk 10 1, h1) ∧
      h1.block 1 = some { sharedRefs_ := 2, weakRefs_ := 0, deleter_ := Deleter.defaultDelete } ∧
      (shared_ptr.mk 10 1).use_count h1 = some 2 :=
  ((lock_shares_ownership (weak_ptr.mk 10 1) heapOwned).1
      { sharedRefs_ := 1, weakRefs_ := 0, deleter_ := Deleter.defaultDelete }
      (by decide) (by decide) (by decide)).elim fun h1 hc =>
    ⟨h1, hc.1, hc.2.1, hc.2.2.2.2.2.2 (by decide)⟩

/-! ## Operations through code that the deleter runs -/

/-- Plain data is quiet: the call of a deleter returns and leaves handles, control blocks and
log alone, provided that `delete` meets a live object or a null pointer. -/
theorem UserCode.plain_quiet (d : Deleter) (p : Nat) (objs : Nat → Option T)
    (halive : d = Deleter.defaultDelete → p = 0 ∨ (objs p).isSome = true) :
    (UserCode.plain : UserCode T).Quiet d p objs := by
  intro f hf
  cases d with
  | custom fn => exact ⟨f, rfl, rfl, rfl, rfl, rfl⟩
  | defaultDelete =>
    by_cases hp : p = 0
    · exact ⟨f, by simp [Frame.call, Frame.destroy, hp], rfl, rfl, rfl, rfl⟩
    · have ha : (objs p).isSome = true := (halive rfl).resolve_left hp
      cases ho : f.heap.objects p with
      | none =>
        rw [hf] at ho
        rw [ho] at ha
        cases ha
      | some v =>
        refine ⟨{ f with heap := f.heap.deleteObject p }, ?_, rfl, rfl,
          Heap.deleteObject_blocks _ _, Heap.deleteObject_log _ _⟩
        simp [Frame.call, Frame.destroy, hp, ho, UserCode.plain]

/-- With a quiet deleter `cleanUp()` on a handle in good standing runs the release protocol
once and leaves `other` alone. -/
theorem shared_ptr.cleanUpRef_released (u : UserCode T) (a : shared_ptr)
    (o : Option shared_ptr) (h : Heap T) (hv : a.valid h = true) (hp : a.ptr_ ≠ 0)
    (hq : ∀ na, h.block a.ptrToControlBlock_ = some na → na.sharedRefs_ = 1 →
      u.Quiet na.deleter_ a.ptr_ h.objects) :
    ∃ f1 s1, shared_ptr.cleanUpRef u { heap := h, self := some a, other := o } = some f1 ∧
      f1.self = some s1 ∧ f1.other = o ∧ Released a h f1.heap := by
  obtain ⟨b, hb, hlo, hhi⟩ := shared_ptr.valid_block a h hv hp
  have hcb : a.ptrToControlBlock_ ≠ 0 := by
    intro e0
    rw [e0, Heap.block_zero] at hb
    cases hb
  have e1 : h.decShared a.ptrToControlBlock_ = some (h.store a.ptrToControlBlock_
      (some { b with sharedRefs_ := (b.sharedRefs_ + (SIZE_MOD - 1)) % SIZE_MOD })) := by
    rw [Heap.decShared, Heap.modify_eq h _ _ b hb]
  have hb1 := Heap.block_store_self h a.ptrToControlBlock_ b
    (some { b with sharedRefs_ := (b.sharedRefs_ + (SIZE_MOD - 1)) % SIZE_MOD }) hb
  have hne1 : ∀ c, c ≠ a.ptrToControlBlock_ → (h.store a.ptrToControlBlock_
      (some { b with sharedRefs_ := (b.sharedRefs_ + (SIZE_MOD - 1)) % SIZE_MOD })).block c
        = h.block c := fun c hc => Heap.block_store_ne _ _ _ _ hc
  have hlog1 := Heap.store_log h a.ptrToControlBlock_
    (some { b with sharedRefs_ := (b.sharedRefs_ + (SIZE_MOD - 1)) % SIZE_MOD })
  have hobj1 := Heap.store_objects h a.ptrToControlBlock_
    (some { b with sharedRefs_ := (b.sharedRefs_ + (SIZE_MOD - 1)) % SIZE_MOD })
  by_cases hone : b.sharedRefs_ = 1
  · have hz : (b.sharedRefs_ + (SIZE_MOD - 1)) % SIZE_MOD = 0 := by
      rw [hone]; decide
    rw [hz] at e1 hb1 hne1 hlog1 hobj1
    generalize h.store a.ptrToControlBlock_ (some { b with sharedRefs_ := 0 }) = h1
      at e1 hb1 hne1 hlog1 hobj1
    obtain ⟨f2, e2, hs2, ho2, hbl2, hlg2⟩ := hq b hb hone
      (Frame.record { heap := h1, self := some a, other := o }
        (Event.invokeDeleter b.deleter_ a.ptr_)) hobj1
    have hblk2 : ∀ c, f2.heap.block c = h1.block c := fun c => Heap.block_congr _ _ hbl2 c
    have hself : f2.self = some a := hs2
    have hb2 : f2.heap.block a.ptrToControlBlock_ = some { b with sharedRefs_ := 0 } := by
      rw [hblk2]; exact hb1
    refine ⟨{ f2 with heap := f2.heap.deleteBlock a.ptrToControlBlock_,
                      self := some { ptr_ := 0, ptrToControlBlock_ := 0 } },
      { ptr_ := 0, ptrToControlBlock_ := 0 }, ?_, rfl, ho2, b, hb, ?_, ?_, ?_⟩
    · simp only [shared_ptr.cleanUpRef, e1, hb1, if_true, e2, hself, hcb, if_false, hb2]
    · intro c hc
      show (f2.heap.deleteBlock a.ptrToControlBlock_).block c = h.block c
      rw [Heap.deleteBlock_block_ne _ _ _ hc, hblk2, hne1 c hc]
    · intro _
      refine ⟨Heap.deleteBlock_block_self _ _ _ hb2, ?_⟩
      show (f2.heap.deleteBlock a.ptrToControlBlock_).log = _
      rw [Heap.deleteBlock_log, hlg2]
      simp [Frame.record, hlog1]
    · intro hne
      exact absurd hone hne
  · have hv1 : (b.sharedRefs_ + (SIZE_MOD - 1)) % SIZE_MOD = b.sharedRefs_ - 1 := by
      simp only [SIZE_MOD] at hhi ⊢; omega
    have hz : ¬ b.sharedRefs_ - 1 = 0 := by omega
    rw [hv1] at e1 hb1 hne1 hlog1
    refine ⟨Frame.mk (h.store a.ptrToControlBlock_
        (some { b with sharedRefs_ := b.sharedRefs_ - 1 })) (some a) o,
      a, ?_, rfl, rfl, b, hb, hne1, fun h0 => absurd h0 hone, fun _ => ⟨hb1, hlog1⟩⟩
    simp only [shared_ptr.cleanUpRef, e1, hb1, hz, if_false]

/-- Outside the amended C6: the list `head -> n10 -> n20` and the assignment
`head = head->next`.  The handle `other` is the member `next` of the node at `10`.
`cleanUp()` deletes that node; its destructor destroys `next`, which releases the node at `20`
and its control block; the assignment then reads `other` out of the released node: undefined
behaviour.  The same happens under `head = std::move(head->next)`. -/
theorem assign_from_own_member_is_undefined :
    (shared_ptr.mk 10 1).valid heapList = true ∧ (shared_ptr.mk 20 2).valid heapList = true ∧
    ((shared_ptr.cleanUpRef (UserCode.holding listMembers (some 10))
        { heap := heapList, self := some (shared_ptr.mk 10 1),
          other := some (shared_ptr.mk 20 2) }).map fun f =>
      (f.other, f.heap.block 1, f.heap.block 2, f.heap.log))
      = some (none, none, none,
          [Event.invokeDeleter Deleter.defaultDelete 10,
           Event.invokeDeleter Deleter.defaultDelete 20, Event.deleteBlock 2,
           Event.deleteBlock 1]) ∧
    (shared_ptr.assignRef (UserCode.holding listMembers (some 10))
        { heap := heapList, self := some (shared_ptr.mk 10 1),
          other := some (shared_ptr.mk 20 2) }).isSome = false ∧
    (shared_ptr.moveAssignRef (UserCode.holding listMembers (some 10))
        { heap := heapList, self := some (shared_ptr.mk 10 1),
          other := some (shared_ptr.mk 20 2) }).isSome = false := by
  decide

/-- Outside the amended C6 as well: the object at `10` that `a` owns holds a handle on the
object at `20`, which `b` and one more handle own (strong count `3`).  In `a = b` the
destructor of the object at `10` releases that member, so the strong count of the block of `b`
is `3` before and `3` after the assignment, not one higher. -/
theorem assign_releasing_a_member_keeps_count :
    (((shared_ptr.mk 20 2).copy heapList).bind fun c => (shared_ptr.mk 20 2).copy c.2).map
        (fun c => c.2.block 2)
      = some (some (controlBlock.mk 3 0 Deleter.defaultDelete)) ∧
    ((((shared_ptr.mk 20 2).copy heapList).bind fun c => (shared_ptr.mk 20 2).copy c.2).bind
        fun c => (shared_ptr.assignRef (UserCode.holding listMembers none)
          { heap := c.2, self := some (shared_ptr.mk 10 1),
            other := some (shared_ptr.mk 20 2) }).map
          fun f => (f.self, f.other, f.heap.block 2))
      = some (some (shared_ptr.mk 20 2), some (shared_ptr.mk 20 2),
          some (controlBlock.mk 3 0 Deleter.defaultDelete)) := by
  decide

/-! ## `reset` through the destructor of the pointee -/

theorem Frame.destroy_objects (u : UserCode T) (p : Nat) (f f1 : Frame T) (hp : p ≠ 0)
    (e : Frame.destroy u p f = some f1) : f1.heap.objects p = none := by
  unfold Frame.destroy at e
  rw [if_neg hp] at e
  split at e
  · cases e
  · simp only [Option.map_eq_some'] at e
    obtain ⟨g, _, rfl⟩ := e
    simp [Heap.deleteObject, hp]

/-- C12 fails as stated.  After `shared_ptr<int> s(p10); weak_ptr<int> w(s);` and the
destruction of `s`, the observer `w` is non-empty but its control block has been deleted:
copy-constructing from it executes `weakRefs_++` on the deleted block, undefined behaviour.
After `shared_ptr<int> s; s.reset(p10);` the owning handle `s` is non-empty (`bool` true) with
a null control-block pointer: constructing an observer from it writes through the null
pointer. -/
theorem weak_construction_without_control_block :
    expiredObserver.map (fun s => (s.1, s.2.block 1, (s.1.copy s.2).isSome))
      = some (weak_ptr.mk 10 1, none, false) ∧
    ((shared_ptr.ctor 0 heap42).1.reset 10 (shared_ptr.ctor 0 heap42).2).1
      = shared_ptr.mk 10 0 ∧
    (shared_ptr.mk 10 0).toBool = true ∧
    (weak_ptr.fromShared (shared_ptr.mk 10 0)
      ((shared_ptr.ctor 0 heap42).1.reset 10 (shared_ptr.ctor 0 heap42).2).2).isSome = false := by
  decide

/-! ## The plain-data instance

With a pointee that is plain data and object pointers that are null or point at live objects,
the operations of the preceding sections are what the definitions `cleanUp`, `assign`,
`moveAssign` and `reset` compute. -/

theorem Frame.call_plain (d : Deleter) (p : Nat) (f : Frame T)
    (halive : p = 0 ∨ (f.heap.objects p).isSome = true) :
    Frame.call UserCode.plain d p f
      = some { f with heap := (match d with
          | Deleter.defaultDelete => f.heap.deleteObject p
          | Deleter.custom _ => f.heap) } := by
  cases d with
  | custom fn => rfl
  | defaultDelete =>
    by_cases hp : p = 0
    · simp [Frame.call, Frame.destroy, hp, Heap.deleteObject]
    · have ha := halive.resolve_left hp
      cases ho : f.heap.objects p with
      | none => rw [ho] at ha; cases ha
      | some v => simp [Frame.call, Frame.destroy, hp, ho, UserCode.plain]

theorem shared_ptr.cleanUpRef_plain (s : shared_ptr) (o : Option shared_ptr) (h : Heap T)
    (halive : s.ptr_ = 0 ∨ (h.objects s.ptr_).isSome = true) :
    shared_ptr.cleanUpRef UserCode.plain { heap := h, self := some s, other := o }
      = (s.cleanUp h).map fun r => { heap := r.2, self := some r.1, other := o } := by
  cases hb : h.block s.ptrToControlBlock_ with
  | none =>
    simp [shared_ptr.cleanUpRef, shared_ptr.cleanUp, Heap.decShared, Heap.modify_none _ _ _ hb]
  | some b =>
    rw [shared_ptr.cleanUp_eq s h b hb]
    have hcb : s.ptrToControlBlock_ ≠ 0 := by
      intro e0
      rw [e0, Heap.block_zero] at hb
      cases hb
    have e1 : h.decShared s.ptrToControlBlock_ = some (h.store s.ptrToControlBlock_
        (some { b with sharedRefs_ := (b.sharedRefs_ + (SIZE_MOD - 1)) % SIZE_MOD })) := by
      rw [Heap.decShared, Heap.modify_eq h _ _ b hb]
    have hb1 := Heap.block_store_self h s.ptrToControlBlock_ b
      (some { b with sharedRefs_ := (b.sharedRefs_ + (SIZE_MOD - 1)) % SIZE_MOD }) hb
    have hobj1 := Heap.store_objects h s.ptrToControlBlock_
      (some { b with sharedRefs_ := (b.sharedRefs_ + (SIZE_MOD - 1)) % SIZE_MOD })
    generalize (b.sharedRefs_ + (SIZE_MOD - 1)) % SIZE_MOD = x at e1 hb1 hobj1 ⊢
    generalize h.store s.ptrToControlBlock_ (some { b with sharedRefs_ := x }) = h1
      at e1 hb1 hobj1 ⊢
    by_cases hz : x = 0
    · subst hz
      have hal : s.ptr_ = 0 ∨ ((Frame.record { heap := h1, self := some s, other := o }
          (Event.invokeDeleter b.deleter_ s.ptr_)).heap.objects s.ptr_).isSome = true := by
        simp only [Frame.record, hobj1]
        exact halive
      have hblk : (h1.invokeDeleter b.deleter_ s.ptr_).block s.ptrToControlBlock_
          = some { b with sharedRefs_ := 0 } := by
        rw [Heap.invokeDeleter_block]; exact hb1
      have hinv : (match b.deleter_ with
          | Deleter.defaultDelete =>
            (Frame.record { heap := h1, self := some s, other := o }
              (Event.invokeDeleter b.deleter_ s.ptr_)).heap.deleteObject s.ptr_
          | Deleter.custom _ =>
            (Frame.record { heap := h1, self := some s, other := o }
              (Event.invokeDeleter b.deleter_ s.ptr_)).heap)
          = h1.invokeDeleter b.deleter_ s.ptr_ := by
        cases b.deleter_ <;> rfl
      simp only [shared_ptr.cleanUpRef, e1, hb1, if_true, Frame.call_plain _ _ _ hal, hinv,
        Option.map_some']
      simp only [Frame.record, hcb, if_false, hblk]
    · simp only [shared_ptr.cleanUpRef, e1, hb1, hz, if_false, Option.map_some']

theorem shared_ptr.assignRef_plain (a b : shared_ptr) (h : Heap T)
    (halive : a.ptr_ = 0 ∨ (h.objects a.ptr_).isSome = true) :
    shared_ptr.assignRef UserCode.plain { heap := h, self := some a, other := some b }
      = (a.assign b h).map fun r => { heap := r.2, self := some r.1, other := some b } := by
  simp only [shared_ptr.assignRef, shared_ptr.assign, shared_ptr.cleanUpRef_plain a (some b) h halive]
  split
  · rfl
  · split
    · cases h.incShared b.ptrToControlBlock_ <;> rfl
    · split
      · cases a.cleanUp h <;> rfl
      · split
        · cases hc : a.cleanUp h with
          | none => rfl
          | some r =>
            simp only [Option.map_some', Option.some_bind]
            cases r.2.incShared b.ptrToControlBlock_ <;> rfl
        · rfl

theorem shared_ptr.moveAssignRef_plain (a b : shared_ptr) (h : Heap T)
    (halive : a.ptr_ = 0 ∨ (h.objects a.ptr_).isSome = true) :
    shared_ptr.moveAssignRef UserCode.plain { heap := h, self := some a, other := some b }
      = (a.moveAssign b h).map fun r =>
          { heap := r.2.2, self := some r.1, other := some r.2.1 } := by
  simp only [shared_ptr.moveAssignRef, shared_ptr.moveAssign,
    shared_ptr.cleanUpRef_plain a (some b) h halive]
  split
  · rfl
  · split
    · rfl
    · split
      · cases a.cleanUp h <;> rfl
      · split
        · cases a.cleanUp h <;> rfl
        · rfl

theorem shared_ptr.resetRef_plain (s : shared_ptr) (o : Option shared_ptr) (p : Nat)
    (h : Heap T) (halive : s.ptr_ = 0 ∨ (h.objects s.ptr_).isSome = true) :
    shared_ptr.resetRef UserCode.plain p { heap := h, self := some s, other := o }
      = some { heap := (s.reset p h).2, self := some (s.reset p h).1, other := o } := by
  by_cases hp : s.ptr_ = 0
  · simp [shared_ptr.resetRef, shared_ptr.reset, Heap.deleteExpr, hp]
  · have ha := halive.resolve_left hp
    cases ho : h.objects s.ptr_ with
    | none => rw [ho] at ha; cases ha
    | some v =>
      simp [shared_ptr.resetRef, shared_ptr.reset, Heap.deleteExpr, hp, Frame.destroy,
        Frame.record, ho, UserCode.plain, Heap.deleteObject]

end my
